import Mathlib

/-!
# BotsOnRails: a shallow embedding of the execution-graph engine

This development embeds the core of the BotsOnRails engine
(`BotsOnRails/rails.py`, `BotsOnRails/nodes.py`, `BotsOnRails/utils.py`,
`BotsOnRails/stores.py`) in Lean 4 and settles the frozen claims about it.

Python runtime values are modelled by the inductive `PyVal`; type
annotations (the arguments of `typing.get_type_hints`) by `PyAnnot`.
Exceptions are modelled by an `error` field on the engine state that, once
set, short-circuits every later operation (the usual model of exception
propagation in a shallow embedding).  Node execution is modelled by a
fuel-indexed interpreter whose fuel bounds the *depth* of the recursive
`run`/`route_output` call stack, exactly as the Python recursion does.
An instrumentation trace records each `BaseNode.run` entry, each
`BaseNode.run_next` entry and each leaf-output hand-off, so that claims
about *which* operations happened (and in what order) are statable.
-/

namespace BotsOnRails

/-- Modelled from the spec: the `SpecialTypes` sentinel enumeration lives in
`BotsOnRails/types.py`, which is absent from `src/` (only its older renamed
copy `nlx/types.py` — lacking `NEVER_RAN` — is present).  Spec §6 requires
four distinguished, mutually distinct sentinels `NEVER_RAN`,
`NEVER_FINISHED`, `NOT_PROVIDED`, `EXECUTION_HALTED`; `nlx/types.py` and the
uses in `rails.py` add the `NO_RETURN` member. -/
inductive SpecialType where
  | NEVER_RAN
  | NO_RETURN
  | NEVER_FINISHED
  | NOT_PROVIDED
  | EXECUTION_HALTED
deriving DecidableEq, Repr

/-- A Python runtime value, as far as the engine inspects one: scalars,
strings and bytes-likes (never spread), `None`, ordered sequences
(`tuple`/`list`), opaque non-primitive objects (identified by a class tag),
and the `SpecialTypes` sentinel members. -/
inductive PyVal where
  | vInt (n : Int)
  | vStr (s : String)
  | vBool (b : Bool)
  | vBytes (s : String)
  | vByteArray (s : String)
  | vNone
  | vList (xs : List PyVal)
  | vTuple (xs : List PyVal)
  | vObj (tag : Nat)
  | special (s : SpecialType)

mutual

/-- Python `==` on runtime values (structural equality; distinct opaque
objects compare by tag). -/
def PyVal.beq : PyVal → PyVal → Bool
  | .vInt a, .vInt b => a == b
  | .vStr a, .vStr b => a == b
  | .vBool a, .vBool b => a == b
  | .vBytes a, .vBytes b => a == b
  | .vByteArray a, .vByteArray b => a == b
  | .vNone, .vNone => true
  | .vList xs, .vList ys => PyVal.beqList xs ys
  | .vTuple xs, .vTuple ys => PyVal.beqList xs ys
  | .vObj a, .vObj b => a == b
  | .special a, .special b => a == b
  | _, _ => false

/-- Elementwise `PyVal.beq` on lists. -/
def PyVal.beqList : List PyVal → List PyVal → Bool
  | [], [] => true
  | x :: xs, y :: ys => PyVal.beq x y && PyVal.beqList xs ys
  | _, _ => false

end

/-- `value is M` / `value == M` for a `SpecialTypes` member `M` (enum
members are unique, so identity and equality coincide on them). -/
def PyVal.isSpecial (s : SpecialType) : PyVal → Bool
  | .special t => t == s
  | _ => false

/-- A Python class, as returned by `type(...)`. -/
inductive PyType where
  | tInt
  | tStr
  | tBool
  | tBytes
  | tByteArray
  | tNoneType
  | tList
  | tTuple
  | tObj (tag : Nat)
  | tSpecial
deriving DecidableEq, Repr

/-- `type(a) == type(b)`? (not needed for claims, but handy). -/
def PyType.beq' (a b : PyType) : Bool := a = b

/-- `type(value)`. -/
def PyVal.typeOf : PyVal → PyType
  | .vInt _ => .tInt
  | .vStr _ => .tStr
  | .vBool _ => .tBool
  | .vBytes _ => .tBytes
  | .vByteArray _ => .tByteArray
  | .vNone => .tNoneType
  | .vList _ => .tList
  | .vTuple _ => .tTuple
  | .vObj tag => .tObj tag
  | .special _ => .tSpecial

/-- `utils.is_iterable_of_primitives(value)`:
`isinstance(value, (tuple, list)) and not isinstance(value, (str, bytes, bytearray))`.
Note that, despite its name and its docstring ("Check if the value is an
iterable of primitives"), the implementation never inspects the element
types: any `tuple` or `list` passes. -/
def is_iterable_of_primitives (value : PyVal) : Bool :=
  (match value with
    | .vTuple _ => true
    | .vList _ => true
    | _ => false)
  && !(match value with
    | .vStr _ => true
    | .vBytes _ => true
    | .vByteArray _ => true
    | _ => false)

/-- Is the value a Python primitive that is not a string or bytes-like
(int, bool, None)? Used only by the spec-side predicate below. -/
def isNonStringPrimitive : PyVal → Bool
  | .vInt _ => true
  | .vBool _ => true
  | .vNone => true
  | _ => false

/-- Modelled from the spec (§4.1 Forwarding): "an ordered sequence of
non-string primitives" — a tuple/list every element of which is a
non-string primitive.  This is the predicate the spec (and the docstring of
`is_iterable_of_primitives`) describes; it is compared against the code's
`is_iterable_of_primitives` above. -/
def spec_seq_of_non_string_primitives (value : PyVal) : Bool :=
  match value with
  | .vTuple xs => xs.all isNonStringPrimitive
  | .vList xs => xs.all isNonStringPrimitive
  | _ => false

/-- The elements of a `tuple`/`list` value (used for spreading as `*args`). -/
def PyVal.elems : PyVal → List PyVal
  | .vTuple xs => xs
  | .vList xs => xs
  | _ => []

/-- `nodes.BaseNode._handle_run_with_unpack_choice`, projected onto the
positional-argument list handed to the routed target: when `unpack_output`
is set and `is_iterable_of_primitives(output)` holds, the output is spread
(`*original_output`); otherwise the whole output is a single argument. -/
def forwardedArgs (unpack_output : Bool) (output : PyVal) : List PyVal :=
  if unpack_output then
    if is_iterable_of_primitives output then output.elems
    else [output]
  else [output]

/-- `len(value)` — defined for sequences and strings, a `TypeError`
(`none`) otherwise. -/
def pyLen : PyVal → Option Nat
  | .vList xs => some xs.length
  | .vTuple xs => some xs.length
  | .vStr s => some s.length
  | .vBytes s => some s.length
  | .vByteArray s => some s.length
  | _ => none

/-- `for item in value` — iteration over sequences (a string iterates its
characters); `none` models the `TypeError` raised for non-iterables. -/
def pyIter : PyVal → Option (List PyVal)
  | .vList xs => some xs
  | .vTuple xs => some xs
  | .vStr s => some (s.toList.map fun c => .vStr (String.singleton c))
  | _ => none

/-! ## Type annotations and `utils.match_types`

`PyAnnot` models the annotation values that `typing.get_type_hints` hands to
`match_types`: plain classes, `typing.NoReturn`, subscripted generics
(`Tuple[...]`, `List[x]`, `Union[...]`; `Optional[x]` is `Union[x, None]`),
the bare `tuple`/`list` classes, and user classes (pydantic models, tagged).
`aNoReturnMarker` is the string `SpecialTypes.NO_RETURN.value`
(`'__NO_RETURN--'`): the pydantic field validator
`BaseNode.validate_output_type` stores that *string* in place of
`typing.NoReturn`, and the string then flows into every later comparison
against the node's output type.  As a string it is unequal to every class,
every subscripted generic and `typing.NoReturn` itself, and `get_origin` of
it is `None`. -/
inductive PyAnnot where
  | aInt
  | aStr
  | aBool
  | aBytes
  | aByteArray
  | aNoneType
  | aNoReturn
  | aNoReturnMarker
  | aTupleOf (args : List PyAnnot)
  | aListOf (arg : PyAnnot)
  | aTupleBare
  | aListBare
  | aUnionOf (args : List PyAnnot)
  | aModel (tag : Nat)

mutual

/-- Structural equality of annotations (Python `==` on annotation values). -/
def PyAnnot.beq : PyAnnot → PyAnnot → Bool
  | .aInt, .aInt => true
  | .aStr, .aStr => true
  | .aBool, .aBool => true
  | .aBytes, .aBytes => true
  | .aByteArray, .aByteArray => true
  | .aNoneType, .aNoneType => true
  | .aNoReturn, .aNoReturn => true
  | .aNoReturnMarker, .aNoReturnMarker => true
  | .aTupleOf xs, .aTupleOf ys => PyAnnot.beqList xs ys
  | .aListOf x, .aListOf y => PyAnnot.beq x y
  | .aTupleBare, .aTupleBare => true
  | .aListBare, .aListBare => true
  | .aUnionOf xs, .aUnionOf ys => PyAnnot.beqList xs ys
  | .aModel a, .aModel b => a == b
  | _, _ => false

/-- Elementwise `PyAnnot.beq`. -/
def PyAnnot.beqList : List PyAnnot → List PyAnnot → Bool
  | [], [] => true
  | x :: xs, y :: ys => PyAnnot.beq x y && PyAnnot.beqList xs ys
  | _, _ => false

end

/-- `typing.get_origin(annotation)`: the unsubscripted origin class of a
subscripted generic (`tuple`, `list`, `typing.Union`), `None` otherwise. -/
inductive PyOrigin where
  | tupleO
  | listO
  | unionO
deriving DecidableEq

/-- `get_origin`. -/
def get_origin : PyAnnot → Option PyOrigin
  | .aTupleOf _ => some .tupleO
  | .aListOf _ => some .listO
  | .aUnionOf _ => some .unionO
  | _ => none

/-- `utils.is_complex_iterable_annot(annot)`:
`hasattr(annot, '__args__') and annot.__args__ is not None` — true exactly
for the subscripted generics. -/
def is_complex_iterable_annot : PyAnnot → Bool
  | .aTupleOf _ => true
  | .aListOf _ => true
  | .aUnionOf _ => true
  | _ => false

/-- `utils.unpack_annotation(annotation)` (named `unpack_annot` here): the
`__args__` of a subscripted generic, else the annotation itself wrapped in a
singleton list. -/
def unpack_annot : PyAnnot → List PyAnnot
  | .aTupleOf args => args
  | .aListOf arg => [arg]
  | .aUnionOf args => args
  | a => [a]

/-- The local `is_tuple_annotation` of `match_types`, applied (as
`match_types` does) to a `get_origin` result: `annotation == tuple or
isinstance(annotation, (tuple, Tuple))`.  A `get_origin` result is a class
(or `None`), never a tuple instance, so only the `== tuple` disjunct can
fire. -/
def is_tuple_annot_origin (o : Option PyOrigin) : Bool := o == some .tupleO

/-- The local `is_list_annotation` of `match_types` on a `get_origin`
result. -/
def is_list_annot_origin (o : Option PyOrigin) : Bool := o == some .listO

/-- The local `is_not_str_or_bytes_str` of `match_types` on a `get_origin`
result: origins are the classes `tuple`/`list`/`typing.Union` or `None`,
none of which equals (or is an instance of) `str`/`bytes`/`bytearray`. -/
def is_not_str_or_bytes_origin (_ : Option PyOrigin) : Bool := true

/-- The local `unpackable_annotation` of `match_types`, applied to
`get_origin(previous_func_output)`. -/
def unpackable_origin (o : Option PyOrigin) : Bool :=
  (is_tuple_annot_origin o || is_list_annot_origin o) && is_not_str_or_bytes_origin o

/-- `isinstance(annot, _GenericAlias)`: true for the subscripted generics
(`Tuple[...]`, `List[x]`, `Union[...]`), false for plain classes and for the
bare `typing.Tuple`/`typing.List` special aliases. -/
def is_generic_alias : PyAnnot → Bool
  | .aTupleOf _ => true
  | .aListOf _ => true
  | .aUnionOf _ => true
  | _ => false

/-- `annot.__origin__ in (list, tuple)` for a subscripted generic. -/
def generic_origin_is_list_or_tuple : PyAnnot → Bool
  | .aTupleOf _ => true
  | .aListOf _ => true
  | _ => false

/-- `isinstance(annot, (tuple, list, Tuple, List))` where `annot` is an
annotation value: classes and typing aliases are never `tuple`/`list`
*instances*, so this is always false. -/
def annot_isinstance_tuple_or_list (_ : PyAnnot) : Bool := false

/-- The consumer side of `match_types`: `next_function`'s
`get_type_hints` minus its `return` entry (`params`, in declaration order),
whether the signature has a `*args` parameter, and the function's name
(used in error messages). -/
structure Consumer where
  cname : String
  params : List PyAnnot
  hasArgsParam : Bool

/-- Positionwise comparison of producer member types against consumer
parameter types (the `zip` loop of branch 2 of `match_types`), erroring at
the first mismatching index. -/
def pairwiseTypeCheck (cname : String) : Nat → List PyAnnot → List PyAnnot → Except String Unit
  | _, [], _ => .ok ()
  | _, _ :: _, [] => .ok ()
  | i, a :: as, b :: bs =>
    if PyAnnot.beq a b then pairwiseTypeCheck cname (i + 1) as bs
    else .error ("Mismatch in input iterable @ pos " ++ toString i ++ " to " ++ cname)

/-- `utils.match_types(previous_func_output, next_function, unpack_output,
for_each_loop, aggregator)`.  A faithful transcription of the branch
structure; `.error` models the `ValueError`s.  Notes kept from the source:
* In the aggregator branch the element-type comparison (`previous !=
  unpack_annotation(param)[0]`) sits behind `elif not isinstance(param,
  (tuple, list, Tuple, List))`, which is false for every annotation value,
  so it is unreachable: a `_GenericAlias` parameter with `list`/`tuple`
  origin passes with no element check, and everything else errors.
* In the final branch, the `len(prev) < len(params)` case raises
  unconditionally; the Optional/Union-compatibility loop after the `raise`
  is dead code. -/
def match_types (previous_func_output : PyAnnot) (next_function : Consumer)
    (unpack_output : Bool) (for_each_loop : Bool) (aggregator : Bool) :
    Except String Unit :=
  if aggregator then
    match next_function.params with
    | [p] =>
      if is_generic_alias p then
        if generic_origin_is_list_or_tuple p then .ok ()
        else .error ("Function following an aggregator should expect a single input tuple or list " ++ next_function.cname)
      else if !(annot_isinstance_tuple_or_list p) then
        .error ("Function following an aggregator should expect a single input tuple or list " ++ next_function.cname)
      else if !(PyAnnot.beq previous_func_output ((unpack_annot p).headD .aNoneType)) then
        .error ("Function following an aggregator should expect a single list or tuple with inner type of " ++ next_function.cname)
      else .ok ()
    | _ =>
      .error ("Function " ++ next_function.cname ++ " following an aggregator node expects multiple inputs but we only support 1 - a list.")
  else if !(unpackable_origin (get_origin previous_func_output)) then
    if PyAnnot.beq previous_func_output .aNoReturn then
      if next_function.params.isEmpty then .ok ()
      else .error ("Function preceding " ++ next_function.cname ++ " has return type of NoReturn yet function expects inputs")
    else if next_function.hasArgsParam then .ok ()
    else
      match next_function.params with
      | [p] =>
        if PyAnnot.beq previous_func_output p then .ok ()
        else .error ("Mismatched input between output and next input of " ++ next_function.cname)
      | [] =>
        .error ("No positional arguments are expected for target function, but preceding function has a return type... " ++ next_function.cname)
      | _ =>
        .error ("Return type is not an iterable (and single, unpackable value), yet next function expects multiple positional args " ++ next_function.cname)
  else if for_each_loop then
    match next_function.params with
    | [p] =>
      match unpack_annot previous_func_output with
      | c :: _ =>
        if PyAnnot.beq c p then .ok ()
        else .error ("for_each_loop - Mismatched input between output and next input of " ++ next_function.cname ++ ". YOU ARE USING FLAG unpack_output.")
      | [] => .error "IndexError: contents_of_iterable[0]"
    | _ =>
      .error ("Return type to " ++ next_function.cname ++ " is an iterable, and you want to loop over each of its constituent elements, but it expects multiple inputs.")
  else if !unpack_output then
    match next_function.params with
    | [p] =>
      if PyAnnot.beq previous_func_output p then .ok ()
      else .error ("Mismatched input between output and next input of " ++ next_function.cname ++ ". YOU ARE NOT USING FLAG unpack_output.")
    | _ =>
      .error ("Return type is an iterable, but you explicitly instructed us not to unpack it (with unpack_output=False), yet next function expects multiple positional args " ++ next_function.cname)
  else
    let prev_f_unpacked_annot := unpack_annot previous_func_output
    if prev_f_unpacked_annot.length > next_function.params.length && !next_function.hasArgsParam then
      .error ("Function " ++ next_function.cname ++ " is going to receive too many positional arguments")
    else if prev_f_unpacked_annot.length == next_function.params.length then
      pairwiseTypeCheck next_function.cname 0 prev_f_unpacked_annot next_function.params
    else if prev_f_unpacked_annot.length < next_function.params.length then
      .error ("Function " ++ next_function.cname ++ " has at least " ++ toString next_function.params.length ++ " required positional args, yet output value of preceding function only has " ++ toString prev_f_unpacked_annot.length ++ " members")
    else .ok ()

/-! ## Nodes, the graph state and the state store

`Route` is `BaseNode.route`: a direct target name (`str`), a value→name
mapping (`dict`), a routing function (`Callable`), or the
`('FOR_EACH', target)` tuple.  The Python attribute also admits `None`
(terminal), modelled as `Option Route`.

`EngineState` merges `ExecutionPath`'s own fields with its (exclusively
owned) `InMemoryStateStore`, plus two pieces of bookkeeping that have no
Python counterpart: `error` (the pending exception, propagating as Python
exceptions do) and `trace` (ghost instrumentation recording each
`BaseNode.run` entry, each `BaseNode.run_next` entry and each leaf-output
hand-off). -/
inductive Route where
  | direct (target : String)
  | table (mapping : List (PyVal × String))
  | fnRoute (f : PyVal → String)
  | forEach (target : String)

/-- `BaseNode` (nodes.py).  `execute_function` is the opaque user callable
(argument list → return value); `sig` is the `get_type_hints` view of it
that compile-time type checking inspects; `output_type` is the annotation
*after* the `validate_output_type` field validator ran (so `NoReturn`
appears as `aNoReturnMarker`). -/
structure Node where
  id : Nat
  nname : String
  executed : Bool := false
  wait_for_approval : Bool := false
  waiting_for_approval : Bool := false
  output_type : PyAnnot := .aStr
  output_data : PyVal := .special .NEVER_RAN
  input_data : PyVal := .special .NOT_PROVIDED
  selected_route : Option String := none
  route : Option Route := none
  func_router_possible_next_step_names : Option (List String) := none
  execute_function : List PyVal → PyVal := fun _ => .vNone
  aggregator : Bool := false
  unpack_output : Bool := true
  sig : Consumer := { cname := "f", params := [], hasArgsParam := false }

/-- `BaseNode.validate_output_type`: the pydantic field validator that
replaces `typing.NoReturn` by the string `SpecialTypes.NO_RETURN.value`. -/
def validate_output_type (v : PyAnnot) : PyAnnot :=
  if PyAnnot.beq v .aNoReturn then .aNoReturnMarker else v

/-- `BaseNode.for_each_start_node`: the route is a well-formed
`('FOR_EACH', name)` tuple. -/
def Node.for_each_start_node (n : Node) : Bool :=
  match n.route with
  | some (.forEach _) => true
  | _ => false

/-- Instrumentation events: `call n args` = entry of `BaseNode.run` on node
`n` with positional `args`; `next n` = entry of `BaseNode.run_next` on `n`;
`leaf v` = the leaf-output handler (`ExecutionPath.handle_output`) invoked
with `v`. -/
inductive Event where
  | call (nm : String) (args : List PyVal)
  | next (nm : String)
  | leaf (v : PyVal)

/-- The whole engine: `ExecutionPath` fields plus its `InMemoryStateStore`
(`store_props` = `state_store`, `cycle_end_lookup` = `cycle_end_node_lookup`,
`cycle_store` = `cycle_store`), an `error` slot modelling a raised and
propagating exception, and the ghost `trace`. -/
structure EngineState where
  nodes : List (String × Node)
  node_ids : List (String × Nat)
  node_names : List (Nat × String)
  root_node_id : Option Nat
  tree_input : PyVal := .vNone
  tree_output : PyVal := .special .NEVER_RAN
  locked_at_step_name : Option String := none
  compiled : Bool := false
  allow_cycles : Bool := true
  true_cycles : Option (List (List String)) := none
  for_each_cycles : Option (List (List String)) := none
  for_each_end_node_ids : List (String × String) := []
  store_props : List ((String × String) × PyVal) := []
  cycle_end_lookup : List (String × String) := []
  cycle_store : List (String × List String) := []
  error : Option String := none
  trace : List Event := []

/-- Raise an exception: record it (first exception wins, as a propagating
Python exception would). -/
def errSt (st : EngineState) (msg : String) : EngineState :=
  match st.error with
  | some _ => st
  | none => { st with error := some msg }

/-- Append a ghost trace event. -/
def pushTrace (st : EngineState) (e : Event) : EngineState :=
  { st with trace := st.trace ++ [e] }

/-- Association-list update (Python dict `d[k] = v`). -/
def assocSet {α : Type} (l : List (String × α)) (k : String) (v : α) : List (String × α) :=
  match l with
  | [] => [(k, v)]
  | (k', v') :: rest => if k' = k then (k, v) :: rest else (k', v') :: assocSet rest k v

/-- Association-list lookup (Python `d.get(k)`). -/
def assocGet {α : Type} (l : List (String × α)) (k : String) : Option α :=
  match l with
  | [] => none
  | (k', v) :: rest => if k' = k then some v else assocGet rest k

/-- `ExecutionPath.get_node(name)` / `self.nodes.get(name, None)`. -/
def getNode? (st : EngineState) (nm : String) : Option Node :=
  assocGet st.nodes nm

/-- Apply `f` to the entries registered under key `nm`. -/
def updAssoc {α : Type} (l : List (String × α)) (nm : String) (f : α → α) :
    List (String × α) :=
  match l with
  | [] => []
  | (k, v) :: rest =>
    if k = nm then (k, f v) :: updAssoc rest nm f else (k, v) :: updAssoc rest nm f

/-- In-place mutation of one registered node (Python nodes are mutated
through the shared registry reference). -/
def updateNode (st : EngineState) (nm : String) (f : Node → Node) : EngineState :=
  { st with nodes := updAssoc st.nodes nm f }

/-- Keyed update of the store's (node name, property name) → value map
(the nested-dict write `state_store[node][prop] = v`, flattened). -/
def propSet (l : List ((String × String) × PyVal)) (k : String × String) (v : PyVal) :
    List ((String × String) × PyVal) :=
  match l with
  | [] => [(k, v)]
  | (k', v') :: rest => if k' = k then (k, v) :: rest else (k', v') :: propSet rest k v

/-- Keyed lookup in the store map. -/
def propGet (l : List ((String × String) × PyVal)) (k : String × String) : Option PyVal :=
  match l with
  | [] => none
  | (k', v) :: rest => if k' = k then some v else propGet rest k

/-- `StateStore.set_property_for_node(node_name, property_name, value)`. -/
def setProp (st : EngineState) (nm prop : String) (v : PyVal) : EngineState :=
  { st with store_props := propSet st.store_props (nm, prop) v }

/-- `StateStore.get_property_for_node(node_name, property_name)`. -/
def getProp (st : EngineState) (nm prop : String) : Option PyVal :=
  propGet st.store_props (nm, prop)

/-- `StateStore.reset()` with no arguments: all three maps are emptied. -/
def storeReset (st : EngineState) : EngineState :=
  { st with store_props := [], cycle_end_lookup := [], cycle_store := [] }

/-- `StateStore.register_cycle(node_ids)`: maps the cycle's start to its end
and every member to the full ordered cycle. -/
def registerCycle (st : EngineState) (node_ids : List String) : EngineState :=
  match node_ids with
  | [] => errSt st "IndexError: register_cycle on empty cycle"
  | start :: _ =>
    let endId := node_ids.getLastD start
    let st := { st with cycle_end_lookup := assocSet st.cycle_end_lookup start endId }
    { st with cycle_store := node_ids.foldl (fun cs nid => assocSet cs nid node_ids) st.cycle_store }

/-- `StateStore.cycle_start_id_ends_at_id(start_id)`. -/
def cycleStartEndsAt (st : EngineState) (start : String) : Option String :=
  assocGet st.cycle_end_lookup start

/-- `BaseNode.clear_state()`: note `input_data` is reset to Python `None`,
not to the `NOT_PROVIDED` sentinel. -/
def Node.clear_state (n : Node) : Node :=
  { n with executed := false, input_data := .vNone,
           output_data := .special .NEVER_RAN, waiting_for_approval := false,
           selected_route := none }

/-- `ExecutionPath._clear_execution_state()`. -/
def clearExecutionState (st : EngineState) : EngineState :=
  { st with tree_output := .special .NEVER_RAN, locked_at_step_name := none,
            nodes := st.nodes.map fun p => (p.1, p.2.clear_state) }

/-- One iteration of the `_prep_state_store` loop: zero the
`expected`/`actual` counters of the span's start (`cycle[0]`) and end
(`cycle[-1]`) node, then register the span. -/
def prepCycle (st : EngineState) (cycle : List String) : EngineState :=
  if st.error.isSome then st
  else
    match cycle with
    | [] => errSt st "IndexError: empty for_each cycle"
    | c0 :: _ =>
      let cLast := cycle.getLastD c0
      let st := setProp st c0 "expected" (.vInt 0)
      let st := setProp st c0 "actual" (.vInt 0)
      let st := setProp st cLast "actual" (.vInt 0)
      let st := setProp st cLast "expected" (.vInt 0)
      registerCycle st cycle

/-- `ExecutionPath._prep_state_store()`: raises if `for_each_cycles` is
still `None`; otherwise zeroes the `expected`/`actual` counters of each
for-each span's start and end node and registers the span with the store. -/
def prepStateStore (st : EngineState) : EngineState :=
  match st.for_each_cycles with
  | none => errSt st "Tree not properly compiled... for_each_cycles is still None"
  | some cycles => cycles.foldl prepCycle st

/-- `ExecutionPath.handle_output(*args)`: the leaf-output handler.  If the
tree output slot already holds a real (non-sentinel) value the run took two
pathways — raise; otherwise store the value. -/
def handle_output (st : EngineState) (v : PyVal) : EngineState :=
  let st := pushTrace st (.leaf v)
  if st.tree_output.isSpecial .NEVER_FINISHED || st.tree_output.isSpecial .NEVER_RAN
      || st.tree_output.isSpecial .EXECUTION_HALTED then
    { st with tree_output := v }
  else
    errSt st "Already handled output for tree suggesting you had parallel execution pathways..."

/-- The argument of `add_node`: the Python call site can hand anything;
anything that is not a `BaseNode` instance must be rejected. -/
inductive NodeArg where
  | isNode (n : Node)
  | notANode

/-- `ExecutionPath.add_node(name, node, root)`: validations (wrong type,
duplicate root, duplicate name) in source order, then the registry and root
mutations, then the back-wiring and the compiled-flag reset. -/
def add_node (st : EngineState) (nm : String) (arg : NodeArg) (root : Bool) : EngineState :=
  if st.error.isSome then st
  else
    match arg with
    | .notANode => errSt st "Node has wrong type... cannot add"
    | .isNode node =>
      if st.root_node_id.isSome && root then
        errSt st "Root node is already registered!"
      else if (assocGet st.node_ids nm).isSome then
        errSt st "Names need to be unique in the TreeBuilder"
      else
        let st := { st with nodes := assocSet st.nodes nm node }
        let st := { st with node_ids := assocSet st.node_ids nm node.id }
        let st := { st with node_names :=
          match st.node_names.find? (fun e => e.1 = node.id) with
          | some _ => st.node_names.map fun e => if e.1 = node.id then (node.id, nm) else e
          | none => st.node_names ++ [(node.id, nm)] }
        let st := if root then { st with root_node_id := some node.id } else st
        if node.route.isSome then { st with compiled := false } else st

/-- `ExecutionPath.root_node_name`. -/
def rootNodeName (st : EngineState) : Option String :=
  match st.root_node_id with
  | none => none
  | some rid => (st.node_names.find? (fun e => e.1 = rid)).map (·.2)

/-! ## The compiled digraph and the cycle analysis

`DiGraph` models the `networkx.DiGraph` built by
`ExecutionPath.generate_nx_digraph`: each registered node with its
`for_each`/`aggregator` tags, and the derived edges (deduplicated, as a
`DiGraph` stores each edge once, successors in insertion order). -/
structure DiGraph where
  gnodes : List (String × Bool × Bool)
  gedges : List (String × String)

/-- `G.add_edge(a, b)` (idempotent, like networkx). -/
def DiGraph.addEdge (g : DiGraph) (a b : String) : DiGraph :=
  if g.gedges.contains (a, b) then g else { g with gedges := g.gedges ++ [(a, b)] }

/-- `list(G.successors(v))`. -/
def DiGraph.successors (g : DiGraph) (v : String) : List String :=
  (g.gedges.filter (fun e => e.1 = v)).map (·.2)

/-- `G.out_degree(v)`. -/
def DiGraph.outDegree (g : DiGraph) (v : String) : Nat :=
  (g.successors v).length

/-- `G.nodes[v].get('for_each', False)`. -/
def DiGraph.forEachTag (g : DiGraph) (v : String) : Bool :=
  match g.gnodes.find? (fun e => e.1 = v) with
  | some (_, fe, _) => fe
  | none => false

/-- `G.nodes[v].get('aggregator', False)`. -/
def DiGraph.aggTag (g : DiGraph) (v : String) : Bool :=
  match g.gnodes.find? (fun e => e.1 = v) with
  | some (_, _, ag) => ag
  | none => false

/-- `ExecutionPath.generate_nx_digraph` (edge derivation only; the
compile-flag warning path is the caller's concern).  One node per registry
entry, tagged with `for_each_start_node`/`aggregator`; then edges per route
kind: every value of a `dict` route, the single target of a `str` route,
every declared possible target of a callable route (skipped when the
declaration is absent), and the fan-out target of a `FOR_EACH` tuple. -/
def generateDigraph (st : EngineState) : DiGraph :=
  let g : DiGraph :=
    { gnodes := st.nodes.map fun p => (p.1, p.2.for_each_start_node, p.2.aggregator),
      gedges := [] }
  st.nodes.foldl
    (fun g p =>
      match p.2.route with
      | some (.table mapping) => mapping.foldl (fun g e => g.addEdge p.1 e.2) g
      | some (.direct target) => g.addEdge p.1 target
      | some (.fnRoute _) =>
        match p.2.func_router_possible_next_step_names with
        | some targets => targets.foldl (fun g t => g.addEdge p.1 t) g
        | none => g
      | some (.forEach target) => g.addEdge p.1 target
      | none => g)
    g

/-- All simple paths from `current` back to `target` through `allowed`
vertices, each vertex used at most once (`path` is the set already used).
Returns each cycle as its ordered vertex list starting at `target`. -/
def cyclePathsFrom (g : DiGraph) (allowed : List String) :
    Nat → String → String → List String → List (List String)
  | 0, _, _, _ => []
  | fuel + 1, target, current, path =>
    (g.successors current).foldl
      (fun acc s =>
        if s = target then acc ++ [path]
        else if allowed.contains s && !path.contains s then
          acc ++ cyclePathsFrom g allowed fuel target s (path ++ [s])
        else acc)
      []

/-- `nx.simple_cycles(G)`: every simple directed cycle exactly once.  Each
cycle is enumerated from its smallest vertex in node-insertion order (the
concrete order differs from networkx's Johnson traversal, but the cycle
*set* — all any caller inspects — is the same). -/
def simpleCycles (g : DiGraph) : List (List String) :=
  let names := g.gnodes.map (·.1)
  (List.range names.length).foldl
    (fun acc i =>
      match names.drop i with
      | [] => acc
      | v :: laterNames => acc ++ cyclePathsFrom g laterNames names.length v v [v])
    []

/-- `ExecutionPath.has_cycle`: the compiled digraph has at least one simple
cycle. -/
def hasCycle (st : EngineState) : Bool :=
  !(simpleCycles (generateDigraph st)).isEmpty

/-- The state threaded through the classification DFS of
`utils.find_cycles_and_for_each_paths`: the (global) visited set, the
accumulated for-each spans, and a raised error.  The `path` list and the
`for_each_start_id` marker are per-frame and passed as arguments. -/
structure DfsState where
  visited : List String
  for_each_paths : List (List String)
  derror : Option String

/-- `path.index(x)` (first occurrence; the DFS only queries members). -/
def idxOf (path : List String) (x : String) : Nat :=
  match path with
  | [] => 0
  | y :: rest => if y = x then 0 else idxOf rest x + 1

/-- The recursive `dfs` of `utils.find_cycles_and_for_each_paths`, fuel
bounded by the number of vertices (the global visited set guarantees each
vertex is expanded at most once). -/
def dfsClassify (g : DiGraph) (cycle_nodes : List String) :
    Nat → String → List String → Option String → DfsState → DfsState
  | 0, _, _, _, s => { s with derror := some "dfs fuel exhausted" }
  | fuel + 1, node_id, path, fes, s =>
    if s.derror.isSome then s
    else if s.visited.contains node_id then s
    else
      let s := { s with visited := s.visited ++ [node_id] }
      let path := path ++ [node_id]
      let fes := if g.forEachTag node_id then some node_id else fes
      if cycle_nodes.contains node_id && fes.isSome then
        { s with derror := some ("For_each node " ++ node_id ++ " is inside a cycle.") }
      else
        let (s, fes) :=
          if g.aggTag node_id && fes.isSome then
            let startId := fes.getD node_id
            let cycle_start_index := idxOf path startId
            let cycle_end_index := idxOf path node_id
            let total_cycle := (path.take (cycle_end_index + 1)).drop cycle_start_index
            ({ s with for_each_paths := s.for_each_paths ++ [total_cycle] }, none)
          else (s, fes)
        if g.outDegree node_id > 1 && fes.isSome then
          { s with derror := some ("Encountered a branch at node " ++ node_id ++ " while traversing from for_each node starting at " ++ node_id) }
        else
          let successor_nodes := g.successors node_id
          if successor_nodes.isEmpty && fes.isSome then
            { s with derror := some ("No aggregator node found for for_each branch starting at " ++ fes.getD node_id) }
          else
            successor_nodes.foldl (fun s nb => dfsClassify g cycle_nodes fuel nb path fes s) s

/-- `utils.find_cycles_and_for_each_paths(graph, root_node_id)`: enumerate
simple cycles, reject nested cycles (one cycle's vertex set contained in
another's), then run the classification DFS from the root.  Returns
(cycles as (start, end) pairs, for-each spans as ordered vertex lists), or
the raised error. -/
def find_cycles_and_for_each_paths (g : DiGraph) (root : String) :
    Except String (List (String × String) × List (List String)) :=
  let cycles := simpleCycles g
  let nested :=
    (List.range cycles.length).any fun i =>
      (List.range cycles.length).any fun j =>
        i < j &&
          (((cycles.getD i []).all fun x => (cycles.getD j []).contains x) ||
           ((cycles.getD j []).all fun x => (cycles.getD i []).contains x))
  if nested then .error "Nested cycles are not allowed."
  else
    let cycle_nodes := cycles.flatten
    let s := dfsClassify g cycle_nodes (g.gnodes.length + 1) root [] none
      { visited := [], for_each_paths := [], derror := none }
    match s.derror with
    | some e => .error e
    | none =>
      .ok (cycles.map (fun c => (c.headD "", c.getLastD "")), s.for_each_paths)

/-- `ExecutionPath.compile(type_checking)`.  Per-node edge derivation with
optional signature checking (dict routes check every branch target,
`FOR_EACH` routes check the fan-out target with for-each semantics,
callable routes check every declared possible target and fail when the
declaration is missing, `str` routes check the one target); then, if
`allow_cycles`, the (cached) cycle analysis; otherwise the `has_cycle`
check; then `_prep_state_store()`; then `compiled = True`. -/
def compileF (st : EngineState) (type_checking : Bool) : EngineState :=
  if st.error.isSome then st
  else if st.root_node_id.isNone then
    errSt st "You need to register a root node."
  else
    let st := st.nodes.foldl
      (fun st p =>
        if st.error.isSome then st
        else
          let node := p.2
          match node.route with
          | none => st
          | some (.table mapping) =>
            mapping.foldl
              (fun st e =>
                if st.error.isSome then st
                else
                  if type_checking then
                    match getNode? st e.2 with
                    | none => errSt st ("KeyError: " ++ e.2)
                    | some target =>
                      match match_types node.output_type target.sig node.unpack_output false node.aggregator with
                      | .error msg => errSt st msg
                      | .ok () => updateNode st p.1 fun n => { n with route := some (.table mapping) }
                  else updateNode st p.1 fun n => { n with route := some (.table mapping) })
              st
          | some (.forEach target) =>
            if type_checking then
              match getNode? st target with
              | none => errSt st ("KeyError: " ++ target)
              | some tn =>
                match match_types node.output_type tn.sig node.unpack_output true node.aggregator with
                | .error msg => errSt st msg
                | .ok () => updateNode st p.1 fun n => { n with route := some (.forEach target) }
            else updateNode st p.1 fun n => { n with route := some (.forEach target) }
          | some (.fnRoute f) =>
            match node.func_router_possible_next_step_names with
            | some possible =>
              if possible.isEmpty then
                errSt st ("Node " ++ p.1 ++ " uses a routing function but does not have func_router_possible_next_step_names set.")
              else
                let st :=
                  if type_checking then
                    possible.foldl
                      (fun st tgt =>
                        if st.error.isSome then st
                        else
                          match getNode? st tgt with
                          | none => errSt st ("KeyError: " ++ tgt)
                          | some target =>
                            match match_types node.output_type target.sig node.unpack_output false node.aggregator with
                            | .error msg => errSt st msg
                            | .ok () => st)
                      st
                  else st
                if st.error.isSome then st
                else updateNode st p.1 fun n =>
                  { n with route := some (.fnRoute f),
                           func_router_possible_next_step_names := some possible }
            | none =>
              errSt st ("Node " ++ p.1 ++ " uses a routing function but does not have func_router_possible_next_step_names set.")
          | some (.direct target) =>
            if type_checking then
              match getNode? st target with
              | none => errSt st ("KeyError: " ++ target)
              | some tn =>
                match match_types node.output_type tn.sig node.unpack_output false node.aggregator with
                | .error msg => errSt st msg
                | .ok () => updateNode st p.1 fun n => { n with route := some (.direct target) }
            else updateNode st p.1 fun n => { n with route := some (.direct target) })
      st
    if st.error.isSome then st
    else
      let st :=
        if st.allow_cycles then
          if st.true_cycles.isNone || st.for_each_cycles.isNone then
            match find_cycles_and_for_each_paths (generateDigraph st) ((rootNodeName st).getD "") with
            | .error msg => errSt st msg
            | .ok (cycles, for_each_cycles) =>
              { st with
                  true_cycles := some (cycles.map fun c => [c.1, c.2]),
                  for_each_cycles := some for_each_cycles,
                  for_each_end_node_ids :=
                    for_each_cycles.foldl
                      (fun m cyc => assocSet m (cyc.headD "") (cyc.getLastD "")) [] }
          else st
        else
          if hasCycle st then
            errSt st "allow_cycles is set to False but the tree has cycles..."
          else st
      if st.error.isSome then st
      else
        let st := prepStateStore st
        if st.error.isSome then st
        else { st with compiled := true }

/-! ## The node runtime -/

/-- `runtime_args`: the per-run context dict.  `input_chain` maps a node
name to the argument tuple it was invoked with. -/
structure RTArgs where
  rinput : PyVal := .vNone
  auto_approve : Bool := false
  input_chain : List (String × PyVal) := []

/-- The aggregator's fetched `actual` value after
`if current_run_count is None: current_run_count = 0`: a missing counter is
`0`; a non-integer counter would make the `+= 1` raise `TypeError`. -/
def actualAsInt : Option PyVal → Option Int
  | none => some 0
  | some (.vInt n) => some n
  | some _ => none

/-- `isinstance(expected, int) and isinstance(current, int) and
current >= expected` — the gate both `BaseNode.run` and the terminal-route
aggregator branch of `route_output` use before proceeding. -/
def aggShouldRoute (expected current : Option PyVal) : Bool :=
  match expected, current with
  | some (.vInt e), some (.vInt c) => c ≥ e
  | _, _ => false

/-- `BaseNode.post_process_output(node_output)` on the node named `nm`.
Marks the node executed; for an aggregator, bumps the `actual` counter and
collects the arrival into `output_data` while `actual <= expected`
(initialising a fresh singleton list on arrival 1, appending afterwards),
silently dropping arrivals once `actual` exceeds `expected`; for an
ordinary node stores the raw output, and for a for-each fan-out start also
publishes `len(output)` as the `expected` count of the start node and of
its paired span-end node.  Returns (updated state, the node's resulting
`output_data`). -/
def post_process_output (st : EngineState) (nm : String) (node_output : PyVal) :
    EngineState × PyVal :=
  match getNode? st nm with
  | none => (errSt st ("AttributeError: missing node " ++ nm), node_output)
  | some node =>
    let st := updateNode st nm fun n => { n with executed := true }
    if node.aggregator then
      let cur := getProp st nm "actual"
      let exp := getProp st nm "expected"
      match actualAsInt cur with
      | none => (errSt st "TypeError: actual counter is not an int", node_output)
      | some c0 =>
        let c := c0 + 1
        let st := setProp st nm "actual" (.vInt c)
        match exp with
        | some (.vInt e) =>
          if c ≤ e then
            if c == 1 then
              let st := updateNode st nm fun n => { n with output_data := .vList [node_output] }
              (st, .vList [node_output])
            else
              match node.output_data with
              | .vList ys =>
                let st := updateNode st nm fun n =>
                  { n with output_data := .vList (ys ++ [node_output]) }
                (st, .vList (ys ++ [node_output]))
              | _ => (errSt st "AttributeError: output_data has no attribute append", node_output)
          else
            (st, node.output_data)
        | _ => (errSt st "expected_run_count is not an integer!", node_output)
    else
      let st := updateNode st nm fun n => { n with output_data := node_output }
      if node.for_each_start_node then
        let loop_end := cycleStartEndsAt st nm
        match pyLen node_output with
        | none => (errSt st "TypeError: object has no len()", node_output)
        | some len =>
          let st := setProp st nm "expected" (.vInt (Int.ofNat len))
          let st :=
            match loop_end with
            | some e => setProp st e "expected" (.vInt (Int.ofNat len))
            | none => st
          (st, node_output)
      else (st, node_output)

/-- `dict.get(output, None)` for a `dict` route (Python `==` lookup). -/
def tableLookup : List (PyVal × String) → PyVal → Option String
  | [], _ => none
  | (k, t) :: rest, v => if PyVal.beq k v then some t else tableLookup rest v

mutual

/-- `BaseNode.run(*args, has_approval, runtime_args)`.  Records the input
chain entry and `input_data`, invokes the executable, post-processes the
output, then: pause if `wait_for_approval` without approval; for an
aggregator route only once `actual >= expected` (both counters integers);
otherwise route.  Fuel bounds the recursion depth exactly as the Python
call stack does. -/
def runNodeF (fuel : Nat) (st : EngineState) (nm : String) (args : List PyVal)
    (has_approval : Bool) (rt : RTArgs) : EngineState :=
  match fuel with
  | 0 => errSt st "RecursionError: maximum recursion depth exceeded"
  | fuel + 1 =>
    if st.error.isSome then st
    else
      match getNode? st nm with
      | none => errSt st ("AttributeError: missing node " ++ nm)
      | some node =>
        let st := pushTrace st (.call nm args)
        let rt := { rt with input_chain := assocSet rt.input_chain nm (.vTuple args) }
        let st := updateNode st nm fun n => { n with input_data := .vTuple args }
        let out := node.execute_function args
        let (st, processed) := post_process_output st nm out
        if st.error.isSome then st
        else
          let cur := getProp st nm "actual"
          let exp := getProp st nm "expected"
          if node.wait_for_approval && !has_approval then
            updateNode st nm fun n => { n with waiting_for_approval := true }
          else if node.aggregator then
            if aggShouldRoute exp cur then routeOutputF fuel st nm processed rt
            else st
          else routeOutputF fuel st nm processed rt
  termination_by (fuel, 0, 0)

/-- `BaseNode.route_output(output, runtime_args)`: dispatch on the route
kind (callable, `FOR_EACH` tuple, dict, direct name, terminal).  The
`self.get_node is not None` guard always holds for tree-registered nodes
(`add_node` wires it). -/
def routeOutputF (fuel : Nat) (st : EngineState) (nm : String) (output : PyVal)
    (rt : RTArgs) : EngineState :=
  match fuel with
  | 0 => errSt st "RecursionError: maximum recursion depth exceeded"
  | fuel + 1 =>
    if st.error.isSome then st
    else
      match getNode? st nm with
      | none => errSt st ("AttributeError: missing node " ++ nm)
      | some node =>
        let cur := getProp st nm "actual"
        let exp := getProp st nm "expected"
        match node.route with
        | some (.fnRoute f) =>
          let st := updateNode st nm fun n => { n with selected_route := some (f output) }
          handleUnpackF fuel st nm output rt
        | some (.forEach target) =>
          match pyIter output with
          | none => errSt st "TypeError: object is not iterable"
          | some items => runListF fuel st target items rt
        | some (.table mapping) =>
          let sel := tableLookup mapping output
          let st := updateNode st nm fun n => { n with selected_route := sel }
          match sel with
          | none => handle_output st output
          | some _ => handleUnpackF fuel st nm output rt
        | some (.direct target) =>
          let st := updateNode st nm fun n => { n with selected_route := some target }
          handleUnpackF fuel st nm output rt
        | none =>
          if node.aggregator then
            if aggShouldRoute exp cur then handle_output st output else st
          else handle_output st output
  termination_by (fuel, 3, 0)

/-- `BaseNode._handle_run_with_unpack_choice(original_output,
runtime_args)`: invoke the node named by `selected_route`, with the output
spread or boxed per `forwardedArgs`, and `has_approval` taken from
`runtime_args['auto_approve']`. -/
def handleUnpackF (fuel : Nat) (st : EngineState) (nm : String) (output : PyVal)
    (rt : RTArgs) : EngineState :=
  match getNode? st nm with
  | none => errSt st ("AttributeError: missing node " ++ nm)
  | some node =>
    match node.selected_route with
    | none => errSt st "AttributeError: NoneType object has no attribute run"
    | some target =>
      runNodeF fuel st target (forwardedArgs node.unpack_output output) rt.auto_approve rt
  termination_by (fuel, 1, 0)

/-- The `for item in output: self.get_node(self.route[1]).run(item,
runtime_args=runtime_args)` loop of the `FOR_EACH` route branch: each
element is passed individually, in sequence order, with `has_approval`
left at its default `False`. -/
def runListF (fuel : Nat) (st : EngineState) (target : String) (items : List PyVal)
    (rt : RTArgs) : EngineState :=
  match items with
  | [] => st
  | item :: rest =>
    let st := runNodeF fuel st target [item] false rt
    runListF fuel st target rest rt
  termination_by (fuel, 2, items.length)

end

/-- `BaseNode.run_next(input_data, output_data, runtime_args)`: bypass
execution — set the data fields, mark executed, and route. -/
def runNextF (fuel : Nat) (st : EngineState) (nm : String)
    (input_data output_data : PyVal) (rt : RTArgs) : EngineState :=
  if st.error.isSome then st
  else
    match getNode? st nm with
    | none => errSt st ("AttributeError: missing node " ++ nm)
    | some _ =>
      let st := pushTrace st (.next nm)
      let st := updateNode st nm fun n =>
        { n with input_data := input_data, output_data := output_data, executed := true }
      routeOutputF fuel st nm output_data rt

/-! ## Tree-level `run` and `run_from_step` -/

/-- The multiple-halt-points error message (names both offending steps). -/
def multipleStopsMsg (a b : String) : String :=
  "Your tree appears to have stopped at multiple execution points - node " ++ a ++ " and " ++ b

/-- The post-execution scan shared by `ExecutionPath.run` and
`ExecutionPath.run_from_step`: walk the registry in order; on each step
with `waiting_for_approval`, raise if a lock point was already found;
otherwise record it (and, in `run` only — `set_halted_output = true` —
also set the tree output to the `EXECUTION_HALTED` sentinel). -/
def scanHaltGo (set_halted_output : Bool) (st : EngineState) :
    List (String × Node) → EngineState
  | [] => st
  | (nm, n) :: rest =>
    if n.waiting_for_approval then
      match st.locked_at_step_name with
      | some prev => errSt st (multipleStopsMsg prev nm)
      | none =>
        let st := { st with locked_at_step_name := some nm }
        let st :=
          if set_halted_output then { st with tree_output := .special .EXECUTION_HALTED }
          else st
        scanHaltGo set_halted_output st rest
    else scanHaltGo set_halted_output st rest

/-- The scan as `ExecutionPath.run` performs it (rails.py lines 445-452). -/
def scanHaltRun (st : EngineState) : EngineState :=
  scanHaltGo true st st.nodes

/-- The scan as `ExecutionPath.run_from_step` performs it (rails.py lines
631-637): identical except the tree output is not set here. -/
def scanHaltRFS (st : EngineState) : EngineState :=
  scanHaltGo false st st.nodes

/-- The tail of `ExecutionPath.run` after `root.run` returned: the halt
scan, then the `NEVER_RAN` → `NEVER_FINISHED` fix-up, then return
`self.output`. -/
def runReport (st : EngineState) : EngineState × PyVal :=
  if st.error.isSome then (st, .special .NEVER_RAN)
  else
    let st := scanHaltRun st
    if st.error.isSome then (st, .special .NEVER_RAN)
    else
      let st :=
        if st.tree_output.isSpecial .NEVER_RAN then
          { st with tree_output := .special .NEVER_FINISHED }
        else st
      (st, st.tree_output)

/-- The tail of `ExecutionPath.run_from_step` after the dispatched
execution returned: the halt scan, the `EXECUTION_HALTED` return when a
lock point was recorded, else the `NEVER_RAN` fix-up and `self.output`. -/
def rfsReport (st : EngineState) : EngineState × PyVal :=
  if st.error.isSome then (st, .special .NEVER_RAN)
  else
    let st := scanHaltRFS st
    if st.error.isSome then (st, .special .NEVER_RAN)
    else
      match st.locked_at_step_name with
      | some _ => (st, .special .EXECUTION_HALTED)
      | none =>
        let st :=
          if st.tree_output.isSpecial .NEVER_RAN then
            { st with tree_output := .special .NEVER_FINISHED }
          else st
        (st, st.tree_output)

/-- `ExecutionPath.run(*args, auto_approve, runtime_args)`. -/
def treeRun (fuel : Nat) (st : EngineState) (args : List PyVal) (auto_approve : Bool) :
    EngineState × PyVal :=
  if st.error.isSome then (st, .special .NEVER_RAN)
  else
    let st := if !st.compiled then compileF st false else st
    if st.error.isSome then (st, .special .NEVER_RAN)
    else
      let st := { st with tree_input := .vTuple args }
      let rt : RTArgs := { rinput := .vTuple args, auto_approve := auto_approve, input_chain := [] }
      match rootNodeName st with
      | none => (errSt st "No root node registered!", .special .NEVER_RAN)
      | some rootNm =>
        let st := clearExecutionState st
        let st := storeReset st
        let st := prepStateStore st
        if st.error.isSome then (st, .special .NEVER_RAN)
        else
          let st := runNodeF fuel st rootNm args auto_approve rt
          runReport st

/-- The per-node record of a serialized previous execution state
(the snapshot's `nodes[name]` entry). -/
structure PrevNodeRec where
  pexecuted : Bool
  pinput_data : PyVal
  poutput_data : PyVal

/-- A previous execution state (`prev_execution_state`): the tree `input`,
the tree `output` slot as serialized, and the per-node records. -/
structure PrevExecState where
  pinput : PyVal
  poutput : PyVal
  pnodes : List (String × PrevNodeRec)

/-- `SpecialTypes(value)`: the enum constructor applied to the serialized
output — accepts a member or its string value, raises `ValueError`
otherwise. -/
def toSpecial : PyVal → Option SpecialType
  | .special s => some s
  | .vStr s =>
    if s = "__NO_RETURN--" then some .NO_RETURN
    else if s = "__NEVER_RAN--" then some .NEVER_RAN
    else if s = "__NEVER_FINISHED--" then some .NEVER_FINISHED
    else if s = "__NOT_PROVIDED--" then some .NOT_PROVIDED
    else if s = "__EXECUTION_HALTED--" then some .EXECUTION_HALTED
    else none
  | _ => none

/-- `ExecutionPath._rehydrate_output(output, node)`:
`issubclass(node.output_type, BaseModel)` raises `TypeError` when the
stored output type is not a class (the `NoReturn` marker string or a
subscripted generic); for plain classes the pydantic branch needs a `dict`
output, which the value model does not contain, so the value passes through
unchanged. -/
def rehydrate_output (output : PyVal) (output_type : PyAnnot) : Except String PyVal :=
  match output_type with
  | .aNoReturnMarker => .error "TypeError: issubclass() arg 1 must be a class"
  | .aNoReturn => .error "TypeError: issubclass() arg 1 must be a class"
  | .aTupleOf _ => .error "TypeError: issubclass() arg 1 must be a class"
  | .aListOf _ => .error "TypeError: issubclass() arg 1 must be a class"
  | .aUnionOf _ => .error "TypeError: issubclass() arg 1 must be a class"
  | _ => .ok output

/-- The guard of rails.py line 504: fail when *none* of the three data
sources is usable — `input_val` left at `NOT_PROVIDED`, no
`prev_execution_state`, and `override_output` left at `NO_RETURN`. -/
def missingSource (input_val : PyVal) (prev : Option PrevExecState)
    (override_output : PyVal) : Bool :=
  input_val.isSpecial .NOT_PROVIDED && prev.isNone && override_output.isSpecial .NO_RETURN

/-- The `run_from_step` missing-data-source error message. -/
def missingSourceMsg : String :=
  "You need to either provide a previous execution state of the tree, an input_val for specified node or an override_output for the specified node."

/-- `type(override_output) == node.output_type`?  `type(...)` yields a
class; a class equals the stored annotation only when that annotation is
the same plain class — never the `NoReturn` marker string, `NoReturn`
itself, or a subscripted generic. -/
def runtimeTypeEqAnnot (t : PyType) (a : PyAnnot) : Bool :=
  match a with
  | .aInt => t == .tInt
  | .aStr => t == .tStr
  | .aBool => t == .tBool
  | .aBytes => t == .tBytes
  | .aByteArray => t == .tByteArray
  | .aNoneType => t == .tNoneType
  | .aTupleBare => t == .tTuple
  | .aListBare => t == .tList
  | .aModel tag => t == .tObj tag
  | _ => false

/-- The data-source dispatch of `run_from_step` (rails.py lines 568-627),
after the start data was determined: an override (validated against the
stored output type) is replayed via `run_next`; else a
non-`NEVER_FINISHED` recorded output is replayed via `run_next` unchanged;
else the node is re-run from scratch via `run` with `has_approval`. -/
def runFromStepDispatch (fuel : Nat) (st : EngineState) (node_name : String)
    (start_node : Node) (has_approval : Bool) (override_output : PyVal)
    (rt : RTArgs) (start_node_input_data start_node_output_data : PyVal) :
    EngineState :=
  if !(override_output.isSpecial .NO_RETURN) then
    if PyAnnot.beq start_node.output_type .aNoReturn then
      errSt st "You are overriding the output of a node that has a NoReturn return signature. Can't do that."
    else if !(runtimeTypeEqAnnot override_output.typeOf start_node.output_type) then
      errSt st "The override output you are providing has a type which appears incompatible with node return type"
    else
      runNextF fuel st node_name start_node_input_data override_output rt
  else if !(start_node_output_data.isSpecial .NEVER_FINISHED) then
    runNextF fuel st node_name start_node_input_data start_node_output_data rt
  else
    if start_node_input_data.isSpecial .NOT_PROVIDED then
      runNodeF fuel st node_name [] has_approval rt
    else
      runNodeF fuel st node_name [start_node_input_data] has_approval rt

/-- `ExecutionPath.run_from_step(node_name, input_val,
prev_execution_state, has_approval, override_output, runtime_args)`. -/
def runFromStepF (fuel : Nat) (st : EngineState) (node_name : String)
    (input_val : PyVal) (prev : Option PrevExecState) (has_approval : Bool)
    (override_output : PyVal) (rt : RTArgs) : EngineState × PyVal :=
  if st.error.isSome then (st, .special .NEVER_RAN)
  else if missingSource input_val prev override_output then
    (errSt st missingSourceMsg, .special .NEVER_RAN)
  else
    let st := if !st.compiled then compileF st false else st
    if st.error.isSome then (st, .special .NEVER_RAN)
    else
      match getNode? st node_name with
      | none => (errSt st ("KeyError: " ++ node_name), .special .NEVER_RAN)
      | some start_node =>
        let st := clearExecutionState st
        let st := storeReset st
        let st := prepStateStore st
        if st.error.isSome then (st, .special .NEVER_RAN)
        else
          let sourced : Except String (EngineState × List (String × PyVal) × PyVal × PyVal) :=
            match prev with
            | some pes =>
              match toSpecial pes.poutput with
              | none => .error "ValueError: is not a valid SpecialTypes"
              | some so =>
                let st := { st with tree_input := pes.pinput, tree_output := .special so }
                match assocGet pes.pnodes node_name with
                | none => .error ("KeyError: " ++ node_name)
                | some rec0 =>
                  let input_chain :=
                    pes.pnodes.foldl
                      (fun ch p => if p.2.pexecuted then assocSet ch p.1 p.2.pinput_data else ch)
                      []
                  match rehydrate_output rec0.poutput_data start_node.output_type with
                  | .error msg => .error msg
                  | .ok out => .ok (st, input_chain, rec0.pinput_data, out)
            | none =>
              let st := { st with tree_input := input_val }
              .ok (st, [], input_val, .special .NEVER_RAN)
          match sourced with
          | .error msg => (errSt st msg, .special .NEVER_RAN)
          | .ok (st, input_chain, start_node_input_data, start_node_output_data) =>
            let rt := { rt with rinput := st.tree_input, input_chain := input_chain }
            let st := runFromStepDispatch fuel st node_name start_node has_approval
              override_output rt start_node_input_data start_node_output_data
            rfsReport st

/-! ## Engine-state bookkeeping lemmas -/

/-- The registered node's current `output_data`, if the node exists. -/
def nodeOutputData (st : EngineState) (nm : String) : Option PyVal :=
  (getNode? st nm).map (fun n => n.output_data)

lemma propGet_propSet_same (l : List ((String × String) × PyVal)) (k : String × String) (v : PyVal) :
    propGet (propSet l k v) k = some v := by
  induction l with
  | nil => simp [propSet, propGet]
  | cons hd tl ih =>
    obtain ⟨k2, v2⟩ := hd
    by_cases h : k2 = k
    · simp [propSet, propGet, h]
    · simp [propSet, propGet, h, ih]

lemma propGet_propSet_ne (l : List ((String × String) × PyVal)) (k k2 : String × String)
    (v : PyVal) (h : k2 ≠ k) :
    propGet (propSet l k v) k2 = propGet l k2 := by
  induction l with
  | nil => simp [propSet, propGet, Ne.symm h]
  | cons hd tl ih =>
    obtain ⟨k3, v3⟩ := hd
    by_cases h3 : k3 = k
    · subst h3
      simp [propSet, propGet, h, Ne.symm h]
    · by_cases h4 : k3 = k2
      · subst h4
        simp [propSet, propGet, h3]
      · simp [propSet, propGet, h3, h4, ih]

lemma getProp_setProp_same (st : EngineState) (nm p : String) (v : PyVal) :
    getProp (setProp st nm p v) nm p = some v :=
  propGet_propSet_same _ _ _

lemma getProp_setProp_ne (st : EngineState) (nm p nm2 p2 : String) (v : PyVal)
    (h : (nm2, p2) ≠ (nm, p)) :
    getProp (setProp st nm p v) nm2 p2 = getProp st nm2 p2 :=
  propGet_propSet_ne _ _ _ _ h

lemma getProp_updateNode (st : EngineState) (nm : String) (f : Node → Node) (nm2 p2 : String) :
    getProp (updateNode st nm f) nm2 p2 = getProp st nm2 p2 := rfl

lemma errSt_store (st : EngineState) (m : String) :
    (errSt st m).store_props = st.store_props := by
  unfold errSt
  cases st.error <;> rfl

lemma errSt_nodes (st : EngineState) (m : String) :
    (errSt st m).nodes = st.nodes := by
  unfold errSt
  cases st.error <;> rfl

lemma errSt_trace (st : EngineState) (m : String) :
    (errSt st m).trace = st.trace := by
  unfold errSt
  cases st.error <;> rfl

lemma getProp_errSt (st : EngineState) (m nm p : String) :
    getProp (errSt st m) nm p = getProp st nm p := by
  unfold getProp
  rw [errSt_store]

lemma assocGet_updAssoc {α : Type} (l : List (String × α)) (nm nm2 : String) (f : α → α) :
    assocGet (updAssoc l nm f) nm2 =
      (if nm2 = nm then (assocGet l nm2).map f else assocGet l nm2) := by
  induction l with
  | nil => by_cases h : nm2 = nm <;> simp [updAssoc, assocGet, h]
  | cons hd tl ih =>
    obtain ⟨k, v⟩ := hd
    by_cases hk : k = nm
    · subst hk
      by_cases h2 : k = nm2
      · subst h2
        simp [updAssoc, assocGet, ih]
      · simp [updAssoc, assocGet, h2, ih]
    · by_cases h2 : k = nm2
      · subst h2
        simp [updAssoc, assocGet, hk, Ne.symm hk]
      · simp [updAssoc, assocGet, hk, h2, ih]

lemma getNode?_updateNode_self (st : EngineState) (nm : String) (f : Node → Node) :
    getNode? (updateNode st nm f) nm = (getNode? st nm).map f := by
  unfold getNode? updateNode
  rw [show (({ st with nodes := updAssoc st.nodes nm f } : EngineState)).nodes = updAssoc st.nodes nm f from rfl]
  rw [assocGet_updAssoc]
  rw [if_pos rfl]

lemma getNode?_setProp (st : EngineState) (nm p : String) (v : PyVal) (nm2 : String) :
    getNode? (setProp st nm p v) nm2 = getNode? st nm2 := rfl

/-! ## Claim C3 -/

/-- The names of the registered steps left `waiting_for_approval`, in
registry order. -/
def waitingNames (st : EngineState) : List String :=
  (st.nodes.filter fun p => p.2.waiting_for_approval).map (fun p => p.1)

lemma scanHaltGo_no_waiting (flag : Bool) (st : EngineState) (l : List (String × Node))
    (h : ∀ a b, (a, b) ∈ l → b.waiting_for_approval = false) :
    scanHaltGo flag st l = st := by
  induction l generalizing st with
  | nil => rfl
  | cons hd tl ih =>
    obtain ⟨nm, n⟩ := hd
    have hw : n.waiting_for_approval = false := h nm n (by simp)
    simp only [scanHaltGo, hw, Bool.false_eq_true, if_false]
    exact ih st (fun a b hm => h a b (by simp [hm]))

lemma scanHaltGo_already_locked (flag : Bool) (st : EngineState) (l : List (String × Node))
    (a : String) (hlk : st.locked_at_step_name = some a) (herr : st.error = none) :
    ∀ b nb rest, l.filter (fun p => p.2.waiting_for_approval) = (b, nb) :: rest →
    (scanHaltGo flag st l).error = some (multipleStopsMsg a b) := by
  induction l with
  | nil => intro b nb rest h; simp at h
  | cons hd tl ih =>
    intro b nb rest h
    obtain ⟨nm, n⟩ := hd
    by_cases hw : n.waiting_for_approval
    · simp [hw] at h
      obtain ⟨⟨h1, h2⟩, h3⟩ := h
      subst h1
      simp [scanHaltGo, hw, hlk, errSt, herr]
    · simp [hw] at h
      simp [scanHaltGo, hw]
      exact ih b nb rest h

lemma scanHaltGo_one (flag : Bool) (st : EngineState) (l : List (String × Node))
    (nm : String) (nn : Node)
    (hlk : st.locked_at_step_name = none) (herr : st.error = none)
    (h : l.filter (fun p => p.2.waiting_for_approval) = [(nm, nn)]) :
    (scanHaltGo flag st l).error = none ∧
    (scanHaltGo flag st l).locked_at_step_name = some nm ∧
    (scanHaltGo flag st l).tree_output =
      (if flag then .special .EXECUTION_HALTED else st.tree_output) := by
  induction l generalizing st with
  | nil => simp at h
  | cons hd tl ih =>
    obtain ⟨hnm, hn⟩ := hd
    by_cases hw : hn.waiting_for_approval
    · simp [hw] at h
      obtain ⟨⟨h1, h2⟩, h3⟩ := h
      subst h1
      cases flag with
      | true =>
        simp only [scanHaltGo, hw, hlk, if_true]
        rw [scanHaltGo_no_waiting true _ tl h3]
        refine ⟨herr, rfl, by simp⟩
      | false =>
        simp only [scanHaltGo, hw, hlk, Bool.false_eq_true, if_false]
        rw [scanHaltGo_no_waiting false _ tl h3]
        refine ⟨herr, rfl, by simp⟩
    · simp [hw] at h
      simp only [scanHaltGo, hw, Bool.false_eq_true, if_false]
      exact ih st hlk herr h

lemma scanHaltGo_two (flag : Bool) (st : EngineState) (l : List (String × Node))
    (a b : String) (na nb : Node) (rest : List (String × Node))
    (hlk : st.locked_at_step_name = none) (herr : st.error = none)
    (h : l.filter (fun p => p.2.waiting_for_approval) = (a, na) :: (b, nb) :: rest) :
    (scanHaltGo flag st l).error = some (multipleStopsMsg a b) := by
  induction l generalizing st with
  | nil => simp at h
  | cons hd tl ih =>
    obtain ⟨hnm, hn⟩ := hd
    by_cases hw : hn.waiting_for_approval
    · simp [hw] at h
      obtain ⟨⟨h1, h2⟩, h3⟩ := h
      subst h1
      cases flag with
      | true =>
        simp only [scanHaltGo, hw, hlk, if_true]
        refine scanHaltGo_already_locked true _ tl hnm ?_ ?_ b nb rest h3
        · rfl
        · exact herr
      | false =>
        simp only [scanHaltGo, hw, hlk, Bool.false_eq_true, if_false]
        refine scanHaltGo_already_locked false _ tl hnm ?_ ?_ b nb rest h3
        · rfl
        · exact herr
    · simp [hw] at h
      simp only [scanHaltGo, hw, Bool.false_eq_true, if_false]
      exact ih st hlk herr h

/-- C3: for every completed execution phase (any engine state with no
pending exception and a cleared lock slot — which is what both
`ExecutionPath.run` and `ExecutionPath.run_from_step` hand to their
post-execution scan): if two or more registered steps are left
`waiting_for_approval`, both calls raise the fatal error naming the first
two offending steps; if exactly one step is waiting, both calls record it
as `locked_at_step_name` and report the `EXECUTION_HALTED` sentinel.
`runReport`/`rfsReport` are, by definition, the tails of `treeRun` and
`runFromStepF` after the node execution returned. -/
theorem C3_single_pathway_enforced (st : EngineState)
    (herr : st.error = none) (hlk : st.locked_at_step_name = none) :
    (∀ a b rest, waitingNames st = a :: b :: rest →
      (runReport st).1.error = some (multipleStopsMsg a b) ∧
      (rfsReport st).1.error = some (multipleStopsMsg a b)) ∧
    (∀ nm, waitingNames st = [nm] →
      (runReport st).1.error = none ∧
      (runReport st).1.locked_at_step_name = some nm ∧
      (runReport st).2 = .special .EXECUTION_HALTED ∧
      (rfsReport st).1.error = none ∧
      (rfsReport st).1.locked_at_step_name = some nm ∧
      (rfsReport st).2 = .special .EXECUTION_HALTED) := by
  constructor
  · intro a b rest h
    rw [show waitingNames st = (st.nodes.filter fun p => p.2.waiting_for_approval).map (fun p => p.1) from rfl] at h
    rcases hfil : st.nodes.filter (fun p => p.2.waiting_for_approval) with _ | ⟨⟨a1, n1⟩, _ | ⟨⟨b1, n2⟩, tl2⟩⟩
    · rw [hfil] at h; simp at h
    · rw [hfil] at h; simp at h
    · rw [hfil] at h
      simp only [List.map_cons, List.cons.injEq] at h
      obtain ⟨ha, hb, -⟩ := h
      subst ha
      subst hb
      have hrun := scanHaltGo_two true st st.nodes a1 b1 n1 n2 tl2 hlk herr hfil
      have hrfs := scanHaltGo_two false st st.nodes a1 b1 n1 n2 tl2 hlk herr hfil
      constructor
      · simp [runReport, scanHaltRun, herr, hrun]
      · simp [rfsReport, scanHaltRFS, herr, hrfs]
  · intro nm h
    rw [show waitingNames st = (st.nodes.filter fun p => p.2.waiting_for_approval).map (fun p => p.1) from rfl] at h
    rcases hfil : st.nodes.filter (fun p => p.2.waiting_for_approval) with _ | ⟨⟨a1, n1⟩, tl1⟩
    · rw [hfil] at h; simp at h
    · rw [hfil] at h
      simp only [List.map_cons, List.cons.injEq] at h
      obtain ⟨ha, htl⟩ := h
      subst ha
      have htl' : tl1 = [] := by
        cases tl1 with
        | nil => rfl
        | cons x xs => simp at htl
      subst htl'
      have hrun := scanHaltGo_one true st st.nodes a1 n1 hlk herr hfil
      have hrfs := scanHaltGo_one false st st.nodes a1 n1 hlk herr hfil
      obtain ⟨he1, hl1, ho1⟩ := hrun
      obtain ⟨he2, hl2, ho2⟩ := hrfs
      rw [if_pos rfl] at ho1
      refine ⟨?_, ?_, ?_, ?_, ?_, ?_⟩
      · simp [runReport, scanHaltRun, herr, he1, ho1, PyVal.isSpecial]
      · simp [runReport, scanHaltRun, herr, he1, ho1, hl1, PyVal.isSpecial]
      · simp [runReport, scanHaltRun, herr, he1, ho1, PyVal.isSpecial]
      · simp [rfsReport, scanHaltRFS, herr, he2, hl2]
      · simp [rfsReport, scanHaltRFS, herr, he2, hl2]
      · simp [rfsReport, scanHaltRFS, herr, he2, hl2]

/-- A registered step for the C3 witness graph. -/
def c3Node (nm : String) (w : Bool) : Node :=
  { id := 0, nname := nm, waiting_for_approval := w }

/-- C3 witness graph: steps `a` (not waiting) and `b` (waiting). -/
def c3St : EngineState :=
  { nodes := [("a", c3Node "a" false), ("b", c3Node "b" true)],
    node_ids := [("a", 0), ("b", 1)], node_names := [(0, "a"), (1, "b")],
    root_node_id := some 0 }

/-- Witness for C3: with exactly step `b` waiting, both post-run scans
record `b` as the lock point and report `EXECUTION_HALTED`. -/
theorem C3_witness :
    waitingNames c3St = ["b"] ∧
    (runReport c3St).2 = .special .EXECUTION_HALTED ∧
    (runReport c3St).1.locked_at_step_name = some "b" ∧
    (rfsReport c3St).2 = .special .EXECUTION_HALTED := by
  have h := (C3_single_pathway_enforced c3St rfl rfl).2 "b" (by rfl)
  exact ⟨by rfl, h.2.2.1, h.2.1, h.2.2.2.2.2⟩

/-! ## Claim C6 -/

/-- C6: the claim says that with `unpack_output` enabled an output is
spread exactly when it is an ordered sequence of non-string *primitives*,
and that a tuple of mixed non-primitive types is passed as one argument.
The code's `is_iterable_of_primitives` (despite its name and docstring)
accepts every `tuple`/`list` without inspecting elements: a tuple of two
opaque non-primitive objects is spread into two positional arguments, not
passed as one. -/
theorem C6_unpack_spread_ignores_element_types :
    is_iterable_of_primitives (.vTuple [.vObj 1, .vObj 2]) = true ∧
    forwardedArgs true (.vTuple [.vObj 1, .vObj 2]) = [.vObj 1, .vObj 2] ∧
    spec_seq_of_non_string_primitives (.vTuple [.vObj 1, .vObj 2]) = false ∧
    forwardedArgs false (.vTuple [.vObj 1, .vObj 2]) = [.vTuple [.vObj 1, .vObj 2]] :=
  ⟨rfl, rfl, rfl, rfl⟩

/-! ## Claim C9 -/

/-- C9: whenever the producer's declared output is a subscripted
tuple/list type with fewer member types than the consumer declares
parameters (unpack mode, neither aggregator nor for-each), `match_types`
raises the insufficient-arguments error unconditionally — for *every*
consumer parameter list, hence also when the trailing parameters are
Optional/Union annotations.  The Optional-compatibility loop after the
`raise` in utils.py lines 279-288 is dead code. -/
theorem C9_insufficient_args_unconditional (prev : PyAnnot) (c : Consumer)
    (hunp : unpackable_origin (get_origin prev) = true)
    (hlen : (unpack_annot prev).length < c.params.length) :
    match_types prev c true false false =
      .error ("Function " ++ c.cname ++ " has at least " ++ toString c.params.length ++
        " required positional args, yet output value of preceding function only has " ++
        toString (unpack_annot prev).length ++ " members") := by
  unfold match_types
  simp only [hunp, Bool.not_true, if_false, Bool.false_eq_true, if_neg, ite_false]
  have hx : ¬ ((unpack_annot prev).length > c.params.length) := by omega
  have h1 : (decide ((unpack_annot prev).length > c.params.length) && !c.hasArgsParam) = false := by
    rw [decide_eq_false hx]
    rfl
  have h2 : ((unpack_annot prev).length == c.params.length) = false := by
    simp only [beq_eq_false_iff_ne, ne_eq]
    omega
  rw [h1, h2]
  simp [hlen]

/-- Witness for C9: producer `Tuple[int]` into consumer
`(x: int, y: Optional[str])` — the trailing parameter is
Union-compatible with the missing position, yet `match_types` errors. -/
theorem C9_witness :
    unpackable_origin (get_origin (.aTupleOf [.aInt])) = true ∧
    (unpack_annot (.aTupleOf [.aInt])).length <
      (Consumer.mk "g" [.aInt, .aUnionOf [.aStr, .aNoneType]] false).params.length ∧
    match_types (.aTupleOf [.aInt]) (Consumer.mk "g" [.aInt, .aUnionOf [.aStr, .aNoneType]] false)
        true false false =
      .error "Function g has at least 2 required positional args, yet output value of preceding function only has 1 members" :=
  ⟨rfl, by decide,
    C9_insufficient_args_unconditional (.aTupleOf [.aInt])
      (Consumer.mk "g" [.aInt, .aUnionOf [.aStr, .aNoneType]] false) rfl (by decide)⟩

/-! ## Claim C1 -/

/-- C1 graphs: step `a` routes directly to `b`; in the acyclic graph `b`
is terminal, in the cyclic one `b` routes back to `a`.  Both are
constructed with `allow_cycles` disabled and the analysis caches at their
construction defaults (`None`). -/
def c1NodeA : Node :=
  { id := 0, nname := "a", route := some (.direct "b") }

def c1NodeBTerminal : Node :=
  { id := 1, nname := "b" }

def c1NodeBBack : Node :=
  { id := 1, nname := "b", route := some (.direct "a") }

def c1AcySt : EngineState :=
  { nodes := [("a", c1NodeA), ("b", c1NodeBTerminal)],
    node_ids := [("a", 0), ("b", 1)], node_names := [(0, "a"), (1, "b")],
    root_node_id := some 0, allow_cycles := false }

def c1CycSt : EngineState :=
  { nodes := [("a", c1NodeA), ("b", c1NodeBBack)],
    node_ids := [("a", 0), ("b", 1)], node_names := [(0, "a"), (1, "b")],
    root_node_id := some 0, allow_cycles := false }

/-- C1: with `allow_cycles` disabled, `compile()` on a *cyclic* graph
raises the dedicated cycles error — but on an *acyclic* graph it raises
too: the `allow_cycles=False` path never populates `for_each_cycles`, so
`_prep_state_store` (which `compile` always calls next) hits its
`for_each_cycles is still None` guard.  `compiled` is never set.  This
refutes "on a graph with no cycles, compile() completes successfully and
sets compiled=true". -/
theorem C1_compile_allow_cycles_false_always_raises :
    hasCycle c1AcySt = false ∧
    (compileF c1AcySt false).error =
      some "Tree not properly compiled... for_each_cycles is still None" ∧
    (compileF c1AcySt false).compiled = false ∧
    hasCycle c1CycSt = true ∧
    (compileF c1CycSt false).error =
      some "allow_cycles is set to False but the tree has cycles..." ∧
    (compileF c1CycSt false).compiled = false := by
  refine ⟨by decide, rfl, by decide, by decide, rfl, by decide⟩

/-! ## Claim C2 -/

/-- C2 graph: one compiled terminal step `a` whose executable returns the
integer 42 and whose declared output type is `int`. -/
def c2Node : Node :=
  { id := 0, nname := "a", output_type := .aInt,
    execute_function := fun _ => .vInt 42 }

def c2St : EngineState :=
  { nodes := [("a", c2Node)],
    node_ids := [("a", 0)], node_names := [(0, "a")],
    root_node_id := some 0, compiled := true,
    true_cycles := some [], for_each_cycles := some [] }

/-- C2: `run_from_step("a", input_val="hi")` — a step with no previously
recorded output and no override.  The claim (and rails.py's own comments:
"If we have output in state from last time waiting approval" /
"Otherwise, the node never completed and we run the node AGAIN", plus the
`TODO - no test case is picking this up` above the re-run branch) say the
step's executable must be re-executed via `run`.  Instead, because the
freshly reset output (`NEVER_RAN`) is merely tested against
`NEVER_FINISHED` (rails.py line 594), the call takes the `run_next` replay
branch: the trace records a `run_next` entry and no `run` entry, the
executable is never invoked (`output_data` stays the `NEVER_RAN` sentinel
rather than becoming 42), the sentinel itself is routed onward to the leaf
handler, and the call reports `NEVER_FINISHED`. -/
theorem C2_input_val_replays_never_ran_sentinel :
    (runFromStepF 5 c2St "a" (.vStr "hi") none false (.special .NO_RETURN) {}).2 =
      .special .NEVER_FINISHED ∧
    (runFromStepF 5 c2St "a" (.vStr "hi") none false (.special .NO_RETURN) {}).1.trace =
      [.next "a", .leaf (.special .NEVER_RAN)] ∧
    nodeOutputData (runFromStepF 5 c2St "a" (.vStr "hi") none false (.special .NO_RETURN) {}).1 "a" =
      some (.special .NEVER_RAN) := by
  refine ⟨?_, ?_, ?_⟩ <;>
    simp [runFromStepF, runFromStepDispatch, runNextF, runNodeF, routeOutputF,
      handleUnpackF, runListF, post_process_output, missingSource, prepStateStore,
      clearExecutionState, storeReset, Node.clear_state, c2St, c2Node, getNode?,
      assocGet, updateNode, updAssoc, getProp, setProp, propGet, propSet, pushTrace,
      errSt, handle_output, actualAsInt, aggShouldRoute, PyVal.isSpecial,
      nodeOutputData, Node.for_each_start_node, scanHaltRFS, scanHaltGo, rfsReport,
      runtimeTypeEqAnnot, PyVal.typeOf, PyAnnot.beq, rehydrate_output]

/-! ## Claim C4 -/

/-- Aggregator step of the C4 graphs: terminal route, `aggregator` set,
executable returns its (single) argument, and an `output_data` holding two
already-collected arrivals. -/
def c4Node : Node :=
  { id := 0, nname := "agg", aggregator := true,
    output_data := .vList [.vInt 2, .vInt 4],
    execute_function := fun args => args.headD .vNone }

/-- C4 graph state after two counted arrivals at the aggregator
(`actual = expected = 2`, output list collected, terminal output already
handled). -/
def c4St : EngineState :=
  { nodes := [("agg", c4Node)],
    node_ids := [("agg", 0)], node_names := [(0, "agg")],
    root_node_id := some 0, compiled := true,
    tree_output := .vInt 99,
    for_each_cycles := some [],
    store_props := [(("agg", "actual"), .vInt 2), (("agg", "expected"), .vInt 2)] }

/-- C4 counterexample: a third arrival at an aggregator whose
`expected` is 2.  `actual` becomes 3 (≠ 2) and `output_data` is left
unchanged (the arrival is dropped), yet the step still proceeds past the
router: `actual >= expected` holds, so the terminal-route branch hands the
collected output to the leaf handler (the `leaf` trace event) — refuting
"proceeds to routing only when actual == expected, otherwise returns
without routing". -/
theorem C4_counterexample_third_arrival_routes :
    getProp (runNodeF 3 c4St "agg" [.vInt 6] false {}) "agg" "actual" = some (.vInt 3) ∧
    getProp (runNodeF 3 c4St "agg" [.vInt 6] false {}) "agg" "expected" = some (.vInt 2) ∧
    (runNodeF 3 c4St "agg" [.vInt 6] false {}).trace =
      [.call "agg" [.vInt 6], .leaf (.vList [.vInt 2, .vInt 4])] ∧
    nodeOutputData (runNodeF 3 c4St "agg" [.vInt 6] false {}) "agg" =
      some (.vList [.vInt 2, .vInt 4]) := by
  refine ⟨?_, ?_, ?_, ?_⟩ <;>
    simp [runNodeF, routeOutputF, handleUnpackF, runListF, post_process_output,
      c4St, c4Node, getNode?, assocGet, updateNode, updAssoc, getProp, setProp,
      propGet, propSet, pushTrace, errSt, handle_output, actualAsInt, aggShouldRoute,
      PyVal.isSpecial, nodeOutputData, Node.for_each_start_node]

/-- C4 (amended): on every arrival at an aggregator step whose counters
are integers, `actual` is incremented; while the new count stays within
`expected`, arrival 1 initialises `output_data` to a singleton ordered
list and later arrivals append in order; once the count exceeds
`expected` the arrival leaves `output_data` unchanged (silently dropped);
and the gate `BaseNode.run` applies before routing passes exactly when
the updated `actual` is **greater than or equal to** `expected` — not
only when equal. -/
theorem C4_aggregator_arrival_semantics (st : EngineState) (nm : String) (node : Node)
    (v old : PyVal) (a e : Int)
    (hn : getNode? st nm = some node)
    (hagg : node.aggregator = true)
    (hold : node.output_data = old)
    (hcur : getProp st nm "actual" = some (.vInt a))
    (hexp : getProp st nm "expected" = some (.vInt e)) :
    getProp (post_process_output st nm v).1 nm "actual" = some (.vInt (a + 1)) ∧
    (a + 1 ≤ e → a + 1 = 1 →
      (post_process_output st nm v).2 = .vList [v] ∧
      nodeOutputData (post_process_output st nm v).1 nm = some (.vList [v])) ∧
    (∀ ys, a + 1 ≤ e → a + 1 ≥ 2 → old = .vList ys →
      (post_process_output st nm v).2 = .vList (ys ++ [v]) ∧
      nodeOutputData (post_process_output st nm v).1 nm = some (.vList (ys ++ [v]))) ∧
    (a + 1 > e →
      (post_process_output st nm v).2 = old ∧
      nodeOutputData (post_process_output st nm v).1 nm = some old) ∧
    (aggShouldRoute (some (.vInt e)) (some (.vInt (a + 1))) = decide (a + 1 ≥ e)) := by
  have h1 : getProp (updateNode st nm fun n => { n with executed := true }) nm "actual" = some (.vInt a) := hcur
  have h2 : getProp (updateNode st nm fun n => { n with executed := true }) nm "expected" = some (.vInt e) := hexp
  simp only [post_process_output, hn, hagg, if_true, h1, h2, actualAsInt, hold]
  refine ⟨?_, ?_, ?_, ?_, ?_⟩
  · split_ifs with hc1 hc2
    · rw [getProp_updateNode, getProp_setProp_same]
    · cases old <;>
        simp [getProp_errSt, getProp_updateNode, getProp_setProp_same]
    · rw [getProp_setProp_same]
  · intro hle h1eq
    have hb : ((a + 1 : Int) == 1) = true := by
      simp [h1eq]
    rw [if_pos hle, if_pos hb]
    refine ⟨rfl, ?_⟩
    simp [nodeOutputData, getNode?_updateNode_self, getNode?_setProp, hn]
  · intro ys hle hge hys
    have hb : ((a + 1 : Int) == 1) = false := by
      have hne : (a + 1 : Int) ≠ 1 := by omega
      simp [hne]
    rw [if_pos hle, if_neg (by simp [hb])]
    subst hys
    refine ⟨rfl, ?_⟩
    simp [nodeOutputData, getNode?_updateNode_self, getNode?_setProp, hn]
  · intro hgt
    rw [if_neg (by omega)]
    refine ⟨rfl, ?_⟩
    simp [nodeOutputData, getNode?_setProp, getNode?_updateNode_self, hn, hold]
  · simp [aggShouldRoute]

/-- Witness for C4 (amended): the third arrival at `c4St`'s aggregator
increments `actual` to 3, leaves the collected pair unchanged, and the
routing gate passes (3 ≥ 2). -/
theorem C4_witness :
    getProp (post_process_output c4St "agg" (.vInt 6)).1 "agg" "actual" = some (.vInt (2 + 1)) ∧
    (post_process_output c4St "agg" (.vInt 6)).2 = .vList [.vInt 2, .vInt 4] ∧
    aggShouldRoute (some (.vInt 2)) (some (.vInt (2 + 1))) = decide ((2 : Int) + 1 ≥ 2) := by
  have h := C4_aggregator_arrival_semantics c4St "agg" c4Node (.vInt 6)
    (.vList [.vInt 2, .vInt 4]) 2 2 rfl rfl rfl rfl rfl
  exact ⟨h.1, (h.2.2.2.1 (by norm_num)).1, h.2.2.2.2⟩

/-! ## Shared lemmas about the run_from_step front matter -/

lemma registerCycle_fields (st : EngineState) (c0 : String) (rest : List String) :
    (registerCycle st (c0 :: rest)).error = st.error ∧
    (registerCycle st (c0 :: rest)).trace = st.trace ∧
    (registerCycle st (c0 :: rest)).nodes = st.nodes := by
  simp [registerCycle]

lemma prepCycle_foldl_ok (cycles : List (List String)) (st : EngineState)
    (herr : st.error = none) (hwf : ∀ c ∈ cycles, c ≠ []) :
    (cycles.foldl prepCycle st).error = none ∧
    (cycles.foldl prepCycle st).trace = st.trace ∧
    (cycles.foldl prepCycle st).nodes = st.nodes := by
  induction cycles generalizing st with
  | nil => exact ⟨herr, rfl, rfl⟩
  | cons c cs ih =>
    rcases hc : c with _ | ⟨c0, rest⟩
    · exact absurd hc (hwf c (by simp))
    · subst hc
      simp only [List.foldl_cons]
      rw [show prepCycle st (c0 :: rest) = registerCycle (setProp (setProp (setProp (setProp st c0 "expected" (.vInt 0)) c0 "actual" (.vInt 0)) ((c0 :: rest).getLastD c0) "actual" (.vInt 0)) ((c0 :: rest).getLastD c0) "expected" (.vInt 0)) (c0 :: rest) from by simp [prepCycle, herr]]
      have hfld := registerCycle_fields (setProp (setProp (setProp (setProp st c0 "expected" (.vInt 0)) c0 "actual" (.vInt 0)) ((c0 :: rest).getLastD c0) "actual" (.vInt 0)) ((c0 :: rest).getLastD c0) "expected" (.vInt 0)) c0 rest
      have herr2 := hfld.1.trans herr
      have hwf2 : ∀ c2 ∈ cs, c2 ≠ [] := fun c2 hm => hwf c2 (by simp [hm])
      have hh := ih _ herr2 hwf2
      refine ⟨hh.1, ?_, ?_⟩
      · rw [hh.2.1, hfld.2.1]
        rfl
      · rw [hh.2.2, hfld.2.2]
        rfl

lemma prepStateStore_ok (st : EngineState) (fes : List (List String))
    (hst : st.for_each_cycles = some fes) (herr : st.error = none)
    (hwf : ∀ c ∈ fes, c ≠ []) :
    (prepStateStore st).error = none ∧
    (prepStateStore st).trace = st.trace ∧
    (prepStateStore st).nodes = st.nodes := by
  unfold prepStateStore
  rw [hst]
  exact prepCycle_foldl_ok fes st herr hwf

lemma errSt_isSome (st : EngineState) (m : String) : (errSt st m).error.isSome = true := by
  unfold errSt
  cases h : st.error <;> simp [h]

lemma rfsReport_err (st : EngineState) (h : st.error.isSome = true) :
    rfsReport st = (st, .special .NEVER_RAN) := by
  simp [rfsReport, h]

lemma runtimeTypeEqAnnot_marker (t : PyType) :
    runtimeTypeEqAnnot t .aNoReturnMarker = false := rfl

/-! ## Claim C8 -/

lemma dispatch_err (fuel : Nat) (st4 : EngineState) (nm : String) (node : Node)
    (ha : Bool) (ov : PyVal) (rt2 : RTArgs) (sin sout : PyVal)
    (hov : ov.isSpecial .NO_RETURN = false)
    (hbad : runtimeTypeEqAnnot ov.typeOf node.output_type = false) :
    (runFromStepDispatch fuel st4 nm node ha ov rt2 sin sout).error.isSome = true ∧
    (runFromStepDispatch fuel st4 nm node ha ov rt2 sin sout).trace = st4.trace := by
  unfold runFromStepDispatch
  rw [hov]
  cases hbeq : PyAnnot.beq node.output_type .aNoReturn
  · simp only [Bool.not_false, if_true, Bool.false_eq_true, if_false, hbad, Bool.not_true]
    exact ⟨errSt_isSome _ _, errSt_trace _ _⟩
  · simp only [Bool.not_false, if_true]
    exact ⟨errSt_isSome _ _, errSt_trace _ _⟩

lemma rfsReport_dispatch_err (fuel : Nat) (st4 : EngineState) (nm : String) (node : Node)
    (ha : Bool) (ov : PyVal) (rt2 : RTArgs) (sin sout : PyVal)
    (hov : ov.isSpecial .NO_RETURN = false)
    (hbad : runtimeTypeEqAnnot ov.typeOf node.output_type = false) :
    (rfsReport (runFromStepDispatch fuel st4 nm node ha ov rt2 sin sout)).1.error.isSome = true ∧
    (rfsReport (runFromStepDispatch fuel st4 nm node ha ov rt2 sin sout)).1.trace = st4.trace := by
  have hd := dispatch_err fuel st4 nm node ha ov rt2 sin sout hov hbad
  rw [rfsReport_err _ hd.1]
  exact ⟨hd.1, hd.2⟩

/-- C8: whenever `run_from_step` is called on a compiled graph with an
`override_output` that is not the `NO_RETURN` sentinel, and either the
named step's stored output type is the never-returns marker (what the
field validator stores for a step declared `NoReturn`), or the override's
runtime type does not equal the stored output type, the call raises — and
no step is run and no routing occurs (the instrumentation trace, which
records every `run`, `run_next` and leaf hand-off, is left untouched).
The never-returns case raises through the type-mismatch branch: the stored
marker is a *string*, unequal to `typing.NoReturn` (rails.py line 575's
check is dead) and unequal to `type(override_output)` for every override. -/
theorem C8_override_output_validation (fuel : Nat) (st : EngineState) (nm : String)
    (node : Node) (iv ov : PyVal) (prev : Option PrevExecState) (ha : Bool) (rt : RTArgs)
    (fes : List (List String))
    (herr : st.error = none) (hcmp : st.compiled = true)
    (hn : getNode? st nm = some node)
    (hfe : st.for_each_cycles = some fes) (hwf : ∀ c ∈ fes, c ≠ [])
    (hov : ov.isSpecial .NO_RETURN = false)
    (hbad : node.output_type = .aNoReturnMarker ∨
            runtimeTypeEqAnnot ov.typeOf node.output_type = false) :
    (runFromStepF fuel st nm iv prev ha ov rt).1.error.isSome = true ∧
    (runFromStepF fuel st nm iv prev ha ov rt).1.trace = st.trace := by
  have hms : missingSource iv prev ov = false := by
    simp [missingSource, hov]
  obtain ⟨hpe, hpt, hpn⟩ :=
    prepStateStore_ok (storeReset (clearExecutionState st)) fes hfe herr hwf
  have htype : runtimeTypeEqAnnot ov.typeOf node.output_type = false := by
    rcases hbad with h | h
    · rw [h]
      rfl
    · exact h
  simp only [runFromStepF, herr, Option.isSome_none, Bool.false_eq_true, if_false, hms,
    hcmp, Bool.not_true, hn, hpe]
  rcases prev with _ | pes
  · constructor
    · exact (rfsReport_dispatch_err _ _ _ _ _ _ _ _ _ hov htype).1
    · exact ((rfsReport_dispatch_err _ _ _ _ _ _ _ _ _ hov htype).2).trans hpt
  · rcases htos : toSpecial pes.poutput with _ | so
    · simp only [htos]
      refine ⟨errSt_isSome _ _, ?_⟩
      rw [errSt_trace]
      exact hpt
    · simp only [htos]
      rcases hag : assocGet pes.pnodes nm with _ | rec0
      · simp only [hag]
        refine ⟨errSt_isSome _ _, ?_⟩
        rw [errSt_trace]
        exact hpt
      · simp only [hag]
        rcases hrh : rehydrate_output rec0.poutput_data node.output_type with msg | out
        · simp only [hrh]
          refine ⟨errSt_isSome _ _, ?_⟩
          rw [errSt_trace]
          exact hpt
        · simp only [hrh]
          constructor
          · exact (rfsReport_dispatch_err _ _ _ _ _ _ _ _ _ hov htype).1
          · exact ((rfsReport_dispatch_err _ _ _ _ _ _ _ _ _ hov htype).2).trans hpt

/-! ## Claim C10 -/

lemma errSt_node_ids (st : EngineState) (m : String) :
    (errSt st m).node_ids = st.node_ids := by
  unfold errSt
  cases st.error <;> rfl

lemma errSt_node_names (st : EngineState) (m : String) :
    (errSt st m).node_names = st.node_names := by
  unfold errSt
  cases st.error <;> rfl

lemma errSt_root (st : EngineState) (m : String) :
    (errSt st m).root_node_id = st.root_node_id := by
  unfold errSt
  cases st.error <;> rfl

/-- C10: `add_node` is atomic on failure.  Whatever the argument (a
non-node value, a duplicate root designation, or a duplicate name), if the
call raises then the step registry (`nodes`, `node_ids`, `node_names`) and
the root designation are exactly as before the call: every validation
check in rails.py lines 129-136 precedes every mutation in lines 138-154. -/
theorem C10_add_node_atomic (st : EngineState) (nm : String) (arg : NodeArg) (root : Bool)
    (herr : st.error = none)
    (hfail : (add_node st nm arg root).error.isSome = true) :
    (add_node st nm arg root).nodes = st.nodes ∧
    (add_node st nm arg root).node_ids = st.node_ids ∧
    (add_node st nm arg root).node_names = st.node_names ∧
    (add_node st nm arg root).root_node_id = st.root_node_id := by
  unfold add_node at hfail ⊢
  simp only [herr, Option.isSome_none, Bool.false_eq_true, if_false] at hfail ⊢
  rcases arg with n | _
  · by_cases h1 : st.root_node_id.isSome && root
    · simp only [h1, if_true]
      exact ⟨errSt_nodes _ _, errSt_node_ids _ _, errSt_node_names _ _, errSt_root _ _⟩
    · simp only [h1, Bool.false_eq_true, if_false] at hfail ⊢
      by_cases h2 : (assocGet st.node_ids nm).isSome
      · simp only [h2, if_true]
        exact ⟨errSt_nodes _ _, errSt_node_ids _ _, errSt_node_names _ _, errSt_root _ _⟩
      · simp only [h2, Bool.false_eq_true, if_false] at hfail
        by_cases h3 : root <;> by_cases h4 : n.route.isSome <;>
          simp [h3, h4, herr] at hfail
  · exact ⟨errSt_nodes _ _, errSt_node_ids _ _, errSt_node_names _ _, errSt_root _ _⟩

/-- Witness for C10: re-registering the name `a` on a graph that already
holds steps `a` and `b` raises the duplicate-name error and leaves the
registry and the root designation untouched. -/
theorem C10_witness :
    (add_node c3St "a" (.isNode (c3Node "x" false)) false).error.isSome = true ∧
    (add_node c3St "a" (.isNode (c3Node "x" false)) false).nodes = c3St.nodes ∧
    (add_node c3St "a" (.isNode (c3Node "x" false)) false).node_ids = c3St.node_ids ∧
    (add_node c3St "a" (.isNode (c3Node "x" false)) false).root_node_id = c3St.root_node_id := by
  have hfail : (add_node c3St "a" (.isNode (c3Node "x" false)) false).error.isSome = true := by
    decide
  have h := C10_add_node_atomic c3St "a" (.isNode (c3Node "x" false)) false rfl hfail
  exact ⟨hfail, h.1, h.2.1, h.2.2.2⟩

/-! ## Claim C7 -/

/-- C7 counterexample: `run_from_step("a", input_val=5, override_output=7)`
supplies *two* data sources simultaneously, yet the call does not fail: it
replays the override through `run_next` and returns 7 with no error —
refuting "a call supplying two or more of these simultaneously fails". -/
theorem C7_counterexample_two_sources_accepted :
    (runFromStepF 5 c2St "a" (.vInt 5) none false (.vInt 7) {}).2 = .vInt 7 ∧
    (runFromStepF 5 c2St "a" (.vInt 5) none false (.vInt 7) {}).1.error = none := by
  refine ⟨?_, ?_⟩ <;>
    simp [runFromStepF, runFromStepDispatch, runNextF, runNodeF, routeOutputF,
      handleUnpackF, runListF, post_process_output, missingSource, prepStateStore,
      prepCycle, clearExecutionState, storeReset, Node.clear_state, c2St, c2Node,
      getNode?, assocGet, updateNode, updAssoc, getProp, setProp, propGet, propSet,
      pushTrace, errSt, handle_output, actualAsInt, aggShouldRoute, PyVal.isSpecial,
      nodeOutputData, Node.for_each_start_node, scanHaltRFS, scanHaltGo, rfsReport,
      runtimeTypeEqAnnot, PyVal.typeOf, PyAnnot.beq, rehydrate_output]

/-- C7 (amended): the only data-source arity check `run_from_step`
performs is the guard of rails.py line 504, which fires exactly when
*none* of `input_val`, `prev_execution_state`, `override_output` is
supplied; calls supplying two or more sources are not rejected
(`override_output` takes precedence, then a recorded output). -/
theorem C7_missing_source_check (iv : PyVal) (prev : Option PrevExecState) (ov : PyVal) :
    (missingSource iv prev ov = true ↔
      (iv = .special .NOT_PROVIDED ∧ prev = none ∧ ov = .special .NO_RETURN)) ∧
    (∀ (fuel : Nat) (st : EngineState) (nm : String) (ha : Bool) (rt : RTArgs),
      st.error = none → missingSource iv prev ov = true →
      (runFromStepF fuel st nm iv prev ha ov rt).1.error = some missingSourceMsg) := by
  constructor
  · unfold missingSource
    cases iv <;> cases ov <;> cases prev <;>
      simp [PyVal.isSpecial]
  · intro fuel st nm ha rt herr hms
    simp [runFromStepF, herr, hms, errSt]

/-- Witness for C7 (amended): with all three sources left at their
defaults the guard fires and the call raises the missing-source error. -/
theorem C7_witness :
    missingSource (.special .NOT_PROVIDED) none (.special .NO_RETURN) = true ∧
    (runFromStepF 1 c2St "a" (.special .NOT_PROVIDED) none false (.special .NO_RETURN) {}).1.error =
      some missingSourceMsg := by
  have h := C7_missing_source_check (.special .NOT_PROVIDED) none (.special .NO_RETURN)
  have hm := h.1.mpr ⟨rfl, rfl, rfl⟩
  exact ⟨hm, h.2 1 c2St "a" false {} rfl hm⟩

/-- A step declared `-> NoReturn`: the field validator stored the marker
string as its output type. -/
def c8Node : Node :=
  { id := 0, nname := "a", output_type := validate_output_type .aNoReturn,
    execute_function := fun _ => .special .NO_RETURN }

def c8St : EngineState :=
  { nodes := [("a", c8Node)],
    node_ids := [("a", 0)], node_names := [(0, "a")],
    root_node_id := some 0, compiled := true,
    true_cycles := some [], for_each_cycles := some [] }

/-- Witness for C8: overriding the output of the `NoReturn`-typed step
`a` with the string `"oops"` raises, leaving the trace empty (nothing ran,
nothing was routed). -/
theorem C8_witness :
    (runFromStepF 5 c8St "a" (.special .NOT_PROVIDED) none false (.vStr "oops") {}).1.error.isSome = true ∧
    (runFromStepF 5 c8St "a" (.special .NOT_PROVIDED) none false (.vStr "oops") {}).1.trace = c8St.trace :=
  C8_override_output_validation 5 c8St "a" c8Node (.special .NOT_PROVIDED) (.vStr "oops")
    none false {} [] rfl rfl rfl rfl (by simp) rfl (Or.inl rfl)

def c5FanoutNode (xs : List PyVal) : Node :=
  { id := 0, nname := "fanout", route := some (.forEach "proc"),
    execute_function := fun _ => .vList xs }

def c5ProcNode (f : PyVal → PyVal) : Node :=
  { id := 1, nname := "proc", route := some (.direct "agg"), unpack_output := false,
    execute_function := fun args => f (args.headD .vNone) }

def c5AggNode (g : PyVal → PyVal) : Node :=
  { id := 2, nname := "agg", aggregator := true,
    execute_function := fun args => g (args.headD .vNone) }

def c5C : List String := ["fanout", "proc", "agg"]

def c5St (xs : List PyVal) (f g : PyVal → PyVal) : EngineState :=
  { nodes := [("fanout", c5FanoutNode xs), ("proc", c5ProcNode f), ("agg", c5AggNode g)],
    node_ids := [("fanout", 0), ("proc", 1), ("agg", 2)],
    node_names := [(0, "fanout"), (1, "proc"), (2, "agg")],
    root_node_id := some 0, compiled := true,
    true_cycles := some [], for_each_cycles := some [c5C],
    for_each_end_node_ids := [("fanout", "agg")] }

def c5rt : RTArgs :=
  { rinput := .vTuple [], auto_approve := false, input_chain := [("fanout", .vTuple [])] }

def c5Trace (f : PyVal → PyVal) (done : List PyVal) : List Event :=
  .call "fanout" [] :: done.flatMap (fun x => [.call "proc" [x], .call "agg" [f x]])

def c5FanoutMid (xs : List PyVal) : Node :=
  { c5FanoutNode xs with executed := true, input_data := .vTuple [], output_data := .vList xs }

def c5ProcMid (f : PyVal → PyVal) (l : PyVal) : Node :=
  { c5ProcNode f with executed := true, input_data := .vTuple [l], output_data := f l,
                      selected_route := some "agg" }

def c5AggMid (f g : PyVal → PyVal) (done : List PyVal) (l : PyVal) : Node :=
  { c5AggNode g with executed := true, input_data := .vTuple [f l],
                     output_data := .vList (done.map fun x => g (f x)) }

def c5Mid (xs : List PyVal) (f g : PyVal → PyVal) (done : List PyVal) : EngineState :=
  { nodes := [
      ("fanout", c5FanoutMid xs),
      ("proc", match done.getLast? with
        | none => (c5ProcNode f).clear_state
        | some l => c5ProcMid f l),
      ("agg", match done.getLast? with
        | none => (c5AggNode g).clear_state
        | some l => c5AggMid f g done l)],
    node_ids := [("fanout", 0), ("proc", 1), ("agg", 2)],
    node_names := [(0, "fanout"), (1, "proc"), (2, "agg")],
    root_node_id := some 0, tree_input := .vTuple [],
    tree_output := .special .NEVER_RAN, locked_at_step_name := none,
    compiled := true, allow_cycles := true,
    true_cycles := some [], for_each_cycles := some [c5C],
    for_each_end_node_ids := [("fanout", "agg")],
    store_props := [(("fanout", "expected"), .vInt (Int.ofNat xs.length)),
                    (("fanout", "actual"), .vInt 0),
                    (("agg", "actual"), .vInt (Int.ofNat done.length)),
                    (("agg", "expected"), .vInt (Int.ofNat xs.length))],
    cycle_end_lookup := [("fanout", "agg")],
    cycle_store := [("fanout", c5C), ("proc", c5C), ("agg", c5C)],
    error := none,
    trace := c5Trace f done }

def c5Final (xs : List PyVal) (f g : PyVal → PyVal) : EngineState :=
  { c5Mid xs f g xs with
      tree_output := .vList (xs.map fun x => g (f x)),
      trace := c5Trace f xs ++ [.leaf (.vList (xs.map fun x => g (f x)))] }

lemma runNodeF_step (fuel : Nat) (st : EngineState) (nm : String) (args : List PyVal)
    (ha : Bool) (rt : RTArgs) (node : Node)
    (herr : st.error = none) (hn : getNode? st nm = some node) :
    runNodeF (fuel + 1) st nm args ha rt =
      (let st1 := updateNode (pushTrace st (.call nm args)) nm
        (fun n => { n with input_data := .vTuple args });
       let rt1 := { rt with input_chain := assocSet rt.input_chain nm (.vTuple args) };
       let pr := post_process_output st1 nm (node.execute_function args);
       if pr.1.error.isSome then pr.1
       else if node.wait_for_approval && !ha then
         updateNode pr.1 nm fun n => { n with waiting_for_approval := true }
       else if node.aggregator then
         (if aggShouldRoute (getProp pr.1 nm "expected") (getProp pr.1 nm "actual") then
            routeOutputF fuel pr.1 nm pr.2 rt1
          else pr.1)
       else routeOutputF fuel pr.1 nm pr.2 rt1) := by
  have hn1 : getNode? (pushTrace st (.call nm args)) nm = some node := hn
  simp only [runNodeF, herr, Option.isSome_none, Bool.false_eq_true, if_false, hn1]
  rw [hn]

lemma routeOutputF_direct (fuel : Nat) (st : EngineState) (nm : String) (output : PyVal)
    (rt : RTArgs) (node : Node) (tgt : String)
    (herr : st.error = none) (hn : getNode? st nm = some node)
    (hroute : node.route = some (.direct tgt)) :
    routeOutputF (fuel + 1) st nm output rt =
      handleUnpackF fuel (updateNode st nm fun n => { n with selected_route := some tgt })
        nm output rt := by
  simp only [routeOutputF, herr, Option.isSome_none, Bool.false_eq_true, if_false, hn, hroute]

lemma routeOutputF_forEach (fuel : Nat) (st : EngineState) (nm : String) (output : PyVal)
    (rt : RTArgs) (node : Node) (tgt : String) (items : List PyVal)
    (herr : st.error = none) (hn : getNode? st nm = some node)
    (hroute : node.route = some (.forEach tgt)) (hit : pyIter output = some items) :
    routeOutputF (fuel + 1) st nm output rt = runListF fuel st tgt items rt := by
  simp only [routeOutputF, herr, Option.isSome_none, Bool.false_eq_true, if_false, hn,
    hroute, hit]

lemma routeOutputF_none_agg (fuel : Nat) (st : EngineState) (nm : String) (output : PyVal)
    (rt : RTArgs) (node : Node)
    (herr : st.error = none) (hn : getNode? st nm = some node)
    (hroute : node.route = none) (hagg : node.aggregator = true) :
    routeOutputF (fuel + 1) st nm output rt =
      (if aggShouldRoute (getProp st nm "expected") (getProp st nm "actual") then
        handle_output st output
      else st) := by
  simp only [routeOutputF, herr, Option.isSome_none, Bool.false_eq_true, if_false, hn,
    hroute, hagg, if_true]

lemma handleUnpackF_run (fuel : Nat) (st : EngineState) (nm : String) (output : PyVal)
    (rt : RTArgs) (node : Node) (tgt : String)
    (hn : getNode? st nm = some node) (hsel : node.selected_route = some tgt) :
    handleUnpackF fuel st nm output rt =
      runNodeF fuel st tgt (forwardedArgs node.unpack_output output) rt.auto_approve rt := by
  simp only [handleUnpackF, hn, hsel, forwardedArgs]


attribute [ext] EngineState

lemma getNode?_pushTrace (st : EngineState) (e : Event) (nm : String) :
    getNode? (pushTrace st e) nm = getNode? st nm := rfl

lemma getNode?_updateNode_ne (st : EngineState) (nm : String) (f : Node → Node) (nm2 : String)
    (h : nm2 ≠ nm) : getNode? (updateNode st nm f) nm2 = getNode? st nm2 := by
  unfold getNode? updateNode
  rw [show (({ st with nodes := updAssoc st.nodes nm f } : EngineState)).nodes = updAssoc st.nodes nm f from rfl]
  rw [assocGet_updAssoc, if_neg h]

lemma getProp_pushTrace (st : EngineState) (e : Event) (nm p : String) :
    getProp (pushTrace st e) nm p = getProp st nm p := rfl

lemma post_process_simple (st : EngineState) (nm : String) (out : PyVal) (node : Node)
    (hn : getNode? st nm = some node) (hagg : node.aggregator = false)
    (hfes : node.for_each_start_node = false) :
    post_process_output st nm out =
      (updateNode (updateNode st nm fun n => { n with executed := true }) nm
        (fun n => { n with output_data := out }), out) := by
  simp only [post_process_output, hn, hagg, Bool.false_eq_true, if_false, hfes]

lemma post_process_agg_first (st : EngineState) (nm : String) (out : PyVal) (node : Node)
    (e : Int)
    (hn : getNode? st nm = some node) (hagg : node.aggregator = true)
    (hcur : getProp st nm "actual" = some (.vInt 0))
    (hexp : getProp st nm "expected" = some (.vInt e))
    (hle : (0 : Int) + 1 ≤ e) :
    post_process_output st nm out =
      (updateNode (setProp (updateNode st nm fun n => { n with executed := true })
          nm "actual" (.vInt (0 + 1))) nm (fun n => { n with output_data := .vList [out] }),
        .vList [out]) := by
  have hcur1 : getProp (updateNode st nm fun n => { n with executed := true }) nm "actual" = some (.vInt 0) := hcur
  have hexp1 : getProp (updateNode st nm fun n => { n with executed := true }) nm "expected" = some (.vInt e) := hexp
  simp only [post_process_output, hn, hagg, if_true, hcur1, hexp1, actualAsInt]
  rw [if_pos hle, if_pos (by rfl)]

lemma post_process_agg_append (st : EngineState) (nm : String) (out : PyVal) (node : Node)
    (a e : Int) (ys : List PyVal)
    (hn : getNode? st nm = some node) (hagg : node.aggregator = true)
    (hcur : getProp st nm "actual" = some (.vInt a))
    (hexp : getProp st nm "expected" = some (.vInt e))
    (hold : node.output_data = .vList ys)
    (hle : a + 1 ≤ e) (hne1 : a + 1 ≠ 1) :
    post_process_output st nm out =
      (updateNode (setProp (updateNode st nm fun n => { n with executed := true })
          nm "actual" (.vInt (a + 1))) nm
          (fun n => { n with output_data := .vList (ys ++ [out]) }),
        .vList (ys ++ [out])) := by
  have hcur1 : getProp (updateNode st nm fun n => { n with executed := true }) nm "actual" = some (.vInt a) := hcur
  have hexp1 : getProp (updateNode st nm fun n => { n with executed := true }) nm "expected" = some (.vInt e) := hexp
  have hb : ((a + 1 : Int) == 1) = false := by
    simp [hne1]
  simp only [post_process_output, hn, hagg, if_true, hcur1, hexp1, actualAsInt, hold, hb]
  rw [if_pos hle]
  simp


lemma updateNode_error (st : EngineState) (nm : String) (f : Node → Node) :
    (updateNode st nm f).error = st.error := rfl

lemma pushTrace_error (st : EngineState) (e : Event) :
    (pushTrace st e).error = st.error := rfl

lemma setProp_error (st : EngineState) (nm p : String) (v : PyVal) :
    (setProp st nm p v).error = st.error := rfl

lemma updateNode_store (st : EngineState) (nm : String) (f : Node → Node) :
    (updateNode st nm f).store_props = st.store_props := rfl

lemma pushTrace_store (st : EngineState) (e : Event) :
    (pushTrace st e).store_props = st.store_props := rfl

lemma getProp_pushTrace' (st : EngineState) (e : Event) (nm p : String) :
    getProp (pushTrace st e) nm p = getProp st nm p := rfl

lemma aggShouldRoute_int (e c : Int) :
    aggShouldRoute (some (.vInt e)) (some (.vInt c)) = decide (e ≤ c) := rfl

/-- One full hop through a plain (non-aggregator, non-for-each,
no-approval) node with a `str` (direct) route and `unpack_output = False`:
`run` executes the node, `post_process_output` stores the output, and the
routing chain hands one boxed argument to the routed target. -/
lemma proc_hop (fuel : Nat) (st : EngineState) (nm tgt : String) (y w : PyVal)
    (rt : RTArgs) (node : Node)
    (herr : st.error = none) (hn : getNode? st nm = some node)
    (hroute : node.route = some (.direct tgt)) (hagg : node.aggregator = false)
    (hfes : node.for_each_start_node = false) (hwait : node.wait_for_approval = false)
    (hunp : node.unpack_output = false) (hexec : node.execute_function [y] = w) :
    runNodeF (fuel + 1 + 1) st nm [y] false rt =
      runNodeF fuel
        (updateNode (updateNode (updateNode (updateNode
            (pushTrace st (.call nm [y]))
            nm (fun n => { n with input_data := .vTuple [y] }))
            nm (fun n => { n with executed := true }))
            nm (fun n => { n with output_data := w }))
            nm (fun n => { n with selected_route := some tgt }))
        tgt [w] rt.auto_approve
        { rt with input_chain := assocSet rt.input_chain nm (.vTuple [y]) } := by
  have hn1 : getNode? (updateNode (pushTrace st (.call nm [y])) nm
      (fun n => { n with input_data := .vTuple [y] })) nm
      = some { node with input_data := .vTuple [y] } := by
    rw [getNode?_updateNode_self, getNode?_pushTrace, hn]
    rfl
  have hagg1 : ({ node with input_data := PyVal.vTuple [y] } : Node).aggregator = false := hagg
  have hfes1 : ({ node with input_data := PyVal.vTuple [y] } : Node).for_each_start_node
      = false := hfes
  rw [runNodeF_step (fuel + 1) st nm [y] false rt node herr hn]
  simp only [hexec]
  simp only [post_process_simple _ _ _ _ hn1 hagg1 hfes1]
  simp only [updateNode_error, pushTrace_error, herr, Option.isSome_none,
    Bool.false_eq_true, if_false, hwait, Bool.false_and, hagg]
  have herr2 : (updateNode (updateNode (updateNode (pushTrace st (.call nm [y])) nm
      (fun n => { n with input_data := .vTuple [y] })) nm
      (fun n => { n with executed := true })) nm
      (fun n => { n with output_data := w })).error = none := herr
  have hn2 : getNode? (updateNode (updateNode (updateNode (pushTrace st (.call nm [y])) nm
      (fun n => { n with input_data := .vTuple [y] })) nm
      (fun n => { n with executed := true })) nm
      (fun n => { n with output_data := w })) nm
      = some { node with input_data := .vTuple [y], executed := true, output_data := w } := by
    rw [getNode?_updateNode_self, getNode?_updateNode_self, getNode?_updateNode_self,
      getNode?_pushTrace, hn]
    rfl
  have hroute2 : ({ node with input_data := PyVal.vTuple [y], executed := true, output_data := w } : Node).route = some (.direct tgt) := hroute
  rw [routeOutputF_direct fuel _ _ _ _ _ _ herr2 hn2 hroute2]
  have hn3 : getNode? (updateNode (updateNode (updateNode (updateNode
      (pushTrace st (.call nm [y])) nm
      (fun n => { n with input_data := .vTuple [y] })) nm
      (fun n => { n with executed := true })) nm
      (fun n => { n with output_data := w })) nm
      (fun n => { n with selected_route := some tgt })) nm
      = some { node with input_data := .vTuple [y], executed := true, output_data := w, selected_route := some tgt } := by
    rw [getNode?_updateNode_self, hn2]
    rfl
  rw [handleUnpackF_run fuel _ _ _ _ _ _ hn3 rfl]
  have hfw : forwardedArgs ({ node with input_data := PyVal.vTuple [y], executed := true, output_data := w, selected_route := some tgt } : Node).unpack_output w = [w] := by
    rw [show ({ node with input_data := PyVal.vTuple [y], executed := true, output_data := w, selected_route := some tgt } : Node).unpack_output = node.unpack_output from rfl, hunp]
    rfl
  rw [hfw]

/-- One full arrival at a terminal aggregator node (no route, no
approval-wait), first arrival (`actual` counter at 0): `run` bumps the
counter, initialises the collected list to a singleton, and routes to the
leaf-output handler exactly when the updated counter has reached
`expected`. -/
lemma agg_hop_first (fuel : Nat) (st : EngineState) (nm : String) (v w : PyVal)
    (rt : RTArgs) (node : Node) (e : Int)
    (herr : st.error = none) (hn : getNode? st nm = some node)
    (hroute : node.route = none) (hagg : node.aggregator = true)
    (hwait : node.wait_for_approval = false)
    (hexec : node.execute_function [v] = w)
    (hcur : getProp st nm "actual" = some (.vInt 0))
    (hexp : getProp st nm "expected" = some (.vInt e))
    (hle : (0 : Int) + 1 ≤ e) :
    runNodeF (fuel + 1 + 1) st nm [v] false rt =
      (if aggShouldRoute (some (.vInt e)) (some (.vInt ((0 : Int) + 1))) then
        handle_output
          (updateNode (setProp (updateNode (updateNode (pushTrace st (.call nm [v])) nm (fun n => { n with input_data := .vTuple [v] })) nm (fun n => { n with executed := true })) nm "actual" (.vInt ((0 : Int) + 1))) nm (fun n => { n with output_data := .vList [w] }))
          (.vList [w])
      else
        updateNode (setProp (updateNode (updateNode (pushTrace st (.call nm [v])) nm (fun n => { n with input_data := .vTuple [v] })) nm (fun n => { n with executed := true })) nm "actual" (.vInt ((0 : Int) + 1))) nm (fun n => { n with output_data := .vList [w] })) := by
  have hn1 : getNode? (updateNode (pushTrace st (.call nm [v])) nm
      (fun n => { n with input_data := .vTuple [v] })) nm
      = some { node with input_data := .vTuple [v] } := by
    rw [getNode?_updateNode_self, getNode?_pushTrace, hn]
    rfl
  have hagg1 : ({ node with input_data := PyVal.vTuple [v] } : Node).aggregator = true := hagg
  have hcur1 : getProp (updateNode (pushTrace st (.call nm [v])) nm
      (fun n => { n with input_data := .vTuple [v] })) nm "actual" = some (.vInt 0) := hcur
  have hexp1 : getProp (updateNode (pushTrace st (.call nm [v])) nm
      (fun n => { n with input_data := .vTuple [v] })) nm "expected" = some (.vInt e) := hexp
  rw [runNodeF_step (fuel + 1) st nm [v] false rt node herr hn]
  simp only [hexec]
  simp only [post_process_agg_first _ _ _ _ e hn1 hagg1 hcur1 hexp1 hle]
  simp only [updateNode_error, setProp_error, pushTrace_error, herr, Option.isSome_none,
    Bool.false_eq_true, if_false, hwait, Bool.false_and, hagg, if_true]
  simp only [getProp_updateNode, getProp_setProp_same,
    getProp_setProp_ne _ nm "actual" nm "expected" _ (by simp), hexp1]
  by_cases hg : aggShouldRoute (some (.vInt e)) (some (.vInt ((0 : Int) + 1))) = true
  · rw [if_pos hg, if_pos hg]
    have herr3 : (updateNode (setProp (updateNode (updateNode (pushTrace st (.call nm [v])) nm (fun n => { n with input_data := .vTuple [v] })) nm (fun n => { n with executed := true })) nm "actual" (.vInt ((0 : Int) + 1))) nm (fun n => { n with output_data := .vList [w] })).error = none := herr
    have hn4 : getNode? (updateNode (setProp (updateNode (updateNode (pushTrace st (.call nm [v])) nm (fun n => { n with input_data := .vTuple [v] })) nm (fun n => { n with executed := true })) nm "actual" (.vInt ((0 : Int) + 1))) nm (fun n => { n with output_data := .vList [w] })) nm
        = some { node with input_data := .vTuple [v], executed := true, output_data := .vList [w] } := by
      rw [getNode?_updateNode_self, getNode?_setProp, getNode?_updateNode_self,
        getNode?_updateNode_self, getNode?_pushTrace, hn]
      rfl
    have hroute2 : ({ node with input_data := PyVal.vTuple [v], executed := true, output_data := PyVal.vList [w] } : Node).route = none := hroute
    have hagg2 : ({ node with input_data := PyVal.vTuple [v], executed := true, output_data := PyVal.vList [w] } : Node).aggregator = true := hagg
    rw [routeOutputF_none_agg fuel _ _ _ _ _ herr3 hn4 hroute2 hagg2]
    simp only [getProp_updateNode, getProp_setProp_same,
      getProp_setProp_ne _ nm "actual" nm "expected" _ (by simp), hexp1]
    rw [if_pos hg]
  · rw [if_neg hg, if_neg hg]

/-- One full arrival at a terminal aggregator node, later arrival
(`actual` counter at `a` with `a + 1 ≠ 1` and still within `expected`):
`run` bumps the counter, appends the arrival to the collected list, and
routes to the leaf-output handler exactly when the updated counter has
reached `expected`. -/
lemma agg_hop_append (fuel : Nat) (st : EngineState) (nm : String) (v w : PyVal)
    (rt : RTArgs) (node : Node) (a e : Int) (ys : List PyVal)
    (herr : st.error = none) (hn : getNode? st nm = some node)
    (hroute : node.route = none) (hagg : node.aggregator = true)
    (hwait : node.wait_for_approval = false)
    (hexec : node.execute_function [v] = w)
    (hcur : getProp st nm "actual" = some (.vInt a))
    (hexp : getProp st nm "expected" = some (.vInt e))
    (hold : node.output_data = .vList ys)
    (hle : a + 1 ≤ e) (hne1 : a + 1 ≠ 1) :
    runNodeF (fuel + 1 + 1) st nm [v] false rt =
      (if aggShouldRoute (some (.vInt e)) (some (.vInt (a + 1))) then
        handle_output
          (updateNode (setProp (updateNode (updateNode (pushTrace st (.call nm [v])) nm (fun n => { n with input_data := .vTuple [v] })) nm (fun n => { n with executed := true })) nm "actual" (.vInt (a + 1))) nm (fun n => { n with output_data := .vList (ys ++ [w]) }))
          (.vList (ys ++ [w]))
      else
        updateNode (setProp (updateNode (updateNode (pushTrace st (.call nm [v])) nm (fun n => { n with input_data := .vTuple [v] })) nm (fun n => { n with executed := true })) nm "actual" (.vInt (a + 1))) nm (fun n => { n with output_data := .vList (ys ++ [w]) })) := by
  have hn1 : getNode? (updateNode (pushTrace st (.call nm [v])) nm
      (fun n => { n with input_data := .vTuple [v] })) nm
      = some { node with input_data := .vTuple [v] } := by
    rw [getNode?_updateNode_self, getNode?_pushTrace, hn]
    rfl
  have hagg1 : ({ node with input_data := PyVal.vTuple [v] } : Node).aggregator = true := hagg
  have hold1 : ({ node with input_data := PyVal.vTuple [v] } : Node).output_data = .vList ys := hold
  have hcur1 : getProp (updateNode (pushTrace st (.call nm [v])) nm
      (fun n => { n with input_data := .vTuple [v] })) nm "actual" = some (.vInt a) := hcur
  have hexp1 : getProp (updateNode (pushTrace st (.call nm [v])) nm
      (fun n => { n with input_data := .vTuple [v] })) nm "expected" = some (.vInt e) := hexp
  rw [runNodeF_step (fuel + 1) st nm [v] false rt node herr hn]
  simp only [hexec]
  simp only [post_process_agg_append _ _ _ _ a e ys hn1 hagg1 hcur1 hexp1 hold1 hle hne1]
  simp only [updateNode_error, setProp_error, pushTrace_error, herr, Option.isSome_none,
    Bool.false_eq_true, if_false, hwait, Bool.false_and, hagg, if_true]
  simp only [getProp_updateNode, getProp_setProp_same,
    getProp_setProp_ne _ nm "actual" nm "expected" _ (by simp), hexp1]
  by_cases hg : aggShouldRoute (some (.vInt e)) (some (.vInt (a + 1))) = true
  · rw [if_pos hg, if_pos hg]
    have herr3 : (updateNode (setProp (updateNode (updateNode (pushTrace st (.call nm [v])) nm (fun n => { n with input_data := .vTuple [v] })) nm (fun n => { n with executed := true })) nm "actual" (.vInt (a + 1))) nm (fun n => { n with output_data := .vList (ys ++ [w]) })).error = none := herr
    have hn4 : getNode? (updateNode (setProp (updateNode (updateNode (pushTrace st (.call nm [v])) nm (fun n => { n with input_data := .vTuple [v] })) nm (fun n => { n with executed := true })) nm "actual" (.vInt (a + 1))) nm (fun n => { n with output_data := .vList (ys ++ [w]) })) nm
        = some { node with input_data := .vTuple [v], executed := true, output_data := .vList (ys ++ [w]) } := by
      rw [getNode?_updateNode_self, getNode?_setProp, getNode?_updateNode_self,
        getNode?_updateNode_self, getNode?_pushTrace, hn]
      rfl
    have hroute2 : ({ node with input_data := PyVal.vTuple [v], executed := true, output_data := PyVal.vList (ys ++ [w]) } : Node).route = none := hroute
    have hagg2 : ({ node with input_data := PyVal.vTuple [v], executed := true, output_data := PyVal.vList (ys ++ [w]) } : Node).aggregator = true := hagg
    rw [routeOutputF_none_agg fuel _ _ _ _ _ herr3 hn4 hroute2 hagg2]
    simp only [getProp_updateNode, getProp_setProp_same,
      getProp_setProp_ne _ nm "actual" nm "expected" _ (by simp), hexp1]
    rw [if_pos hg]
  · rw [if_neg hg, if_neg hg]

/-- `c5Mid` for a nonempty prefix `L ++ [b]`, with the two
last-element matches resolved: the form every mid-loop state takes. -/
def c5MidStep (xs : List PyVal) (f g : PyVal → PyVal) (L : List PyVal) (b : PyVal) :
    EngineState :=
  { nodes := [("fanout", c5FanoutMid xs), ("proc", c5ProcMid f b),
              ("agg", c5AggMid f g (L ++ [b]) b)],
    node_ids := [("fanout", 0), ("proc", 1), ("agg", 2)],
    node_names := [(0, "fanout"), (1, "proc"), (2, "agg")],
    root_node_id := some 0, tree_input := .vTuple [],
    tree_output := .special .NEVER_RAN, locked_at_step_name := none,
    compiled := true, allow_cycles := true,
    true_cycles := some [], for_each_cycles := some [c5C],
    for_each_end_node_ids := [("fanout", "agg")],
    store_props := [(("fanout", "expected"), .vInt (Int.ofNat xs.length)),
                    (("fanout", "actual"), .vInt 0),
                    (("agg", "actual"), .vInt (Int.ofNat (L ++ [b]).length)),
                    (("agg", "expected"), .vInt (Int.ofNat xs.length))],
    cycle_end_lookup := [("fanout", "agg")],
    cycle_store := [("fanout", c5C), ("proc", c5C), ("agg", c5C)],
    error := none,
    trace := c5Trace f (L ++ [b]) }

lemma c5Mid_concat (xs : List PyVal) (f g : PyVal → PyVal) (L : List PyVal) (b : PyVal) :
    c5Mid xs f g (L ++ [b]) = c5MidStep xs f g L b := by
  simp [c5Mid, c5MidStep, List.getLast?_concat]

/-- The runtime-args dict as it stands when the fan-out loop hands control
to the aggregator for element `y`. -/
def c5rt2 (y : PyVal) : RTArgs :=
  { rinput := .vTuple [], auto_approve := false,
    input_chain := [("fanout", .vTuple []), ("proc", .vTuple [y])] }

/-- The engine state mid-element: `proc` has just run on `y` and selected
`agg`, which still holds `aggN` and whose `actual` counter still reads
`aCnt`. -/
def c5MidP (xs : List PyVal) (f g : PyVal → PyVal) (aggN : Node) (doneTrace : List Event)
    (aCnt : Int) (y : PyVal) : EngineState :=
  { nodes := [("fanout", c5FanoutMid xs), ("proc", c5ProcMid f y), ("agg", aggN)],
    node_ids := [("fanout", 0), ("proc", 1), ("agg", 2)],
    node_names := [(0, "fanout"), (1, "proc"), (2, "agg")],
    root_node_id := some 0, tree_input := .vTuple [],
    tree_output := .special .NEVER_RAN, locked_at_step_name := none,
    compiled := true, allow_cycles := true,
    true_cycles := some [], for_each_cycles := some [c5C],
    for_each_end_node_ids := [("fanout", "agg")],
    store_props := [(("fanout", "expected"), .vInt (Int.ofNat xs.length)),
                    (("fanout", "actual"), .vInt 0),
                    (("agg", "actual"), .vInt aCnt),
                    (("agg", "expected"), .vInt (Int.ofNat xs.length))],
    cycle_end_lookup := [("fanout", "agg")],
    cycle_store := [("fanout", c5C), ("proc", c5C), ("agg", c5C)],
    error := none,
    trace := doneTrace ++ [.call "proc" [y]] }

/-- The engine state right after the aggregator absorbed element `y`:
collected list extended to `ys ++ [g (f y)]`, counter bumped to
`aCnt + 1`. -/
def c5AfterAgg (xs : List PyVal) (f g : PyVal → PyVal) (doneTrace : List Event)
    (aCnt : Int) (ys : List PyVal) (y : PyVal) : EngineState :=
  { nodes := [("fanout", c5FanoutMid xs), ("proc", c5ProcMid f y),
              ("agg", { c5AggNode g with executed := true, input_data := .vTuple [f y], output_data := .vList (ys ++ [g (f y)]) })],
    node_ids := [("fanout", 0), ("proc", 1), ("agg", 2)],
    node_names := [(0, "fanout"), (1, "proc"), (2, "agg")],
    root_node_id := some 0, tree_input := .vTuple [],
    tree_output := .special .NEVER_RAN, locked_at_step_name := none,
    compiled := true, allow_cycles := true,
    true_cycles := some [], for_each_cycles := some [c5C],
    for_each_end_node_ids := [("fanout", "agg")],
    store_props := [(("fanout", "expected"), .vInt (Int.ofNat xs.length)),
                    (("fanout", "actual"), .vInt 0),
                    (("agg", "actual"), .vInt (aCnt + 1)),
                    (("agg", "expected"), .vInt (Int.ofNat xs.length))],
    cycle_end_lookup := [("fanout", "agg")],
    cycle_store := [("fanout", c5C), ("proc", c5C), ("agg", c5C)],
    error := none,
    trace := (doneTrace ++ [.call "proc" [y]]) ++ [.call "agg" [f y]] }

/-- One iteration of the for-each loop body: from the mid-loop state with
prefix `done` processed, running `proc` on the next element `y` executes
`proc` then `agg` (in that order), extends the collected list by
`g (f y)`, and hands the collected list to the leaf-output handler exactly
on the last element (`rest0 = []`). -/
lemma c5_step_to_gate (xs done rest0 : List PyVal) (y : PyVal) (f g : PyVal → PyVal)
    (hxs : xs = done ++ y :: rest0) :
    runNodeF 7 (c5Mid xs f g done) "proc" [y] false c5rt =
      (if rest0.isEmpty then
        handle_output (c5Mid xs f g (done ++ [y]))
          (.vList ((done ++ [y]).map fun x => g (f x)))
      else c5Mid xs f g (done ++ [y])) := by
  rcases List.eq_nil_or_concat done with hd | ⟨L, b, hd⟩
  · subst hd
    have hle1 : (0 : Int) + 1 ≤ Int.ofNat xs.length := by
      rw [hxs]
      simp only [List.nil_append, List.length_cons, Int.ofNat_eq_natCast]
      omega
    have s1 : runNodeF 7 (c5Mid xs f g []) "proc" [y] false c5rt
        = runNodeF 5 (c5MidP xs f g ((c5AggNode g).clear_state) (c5Trace f []) 0 y)
            "agg" [f y] false (c5rt2 y) :=
      proc_hop 5 (c5Mid xs f g []) "proc" "agg" y (f y) c5rt ((c5ProcNode f).clear_state)
        rfl rfl rfl rfl rfl rfl rfl rfl
    rw [s1]
    have s2 : runNodeF 5 (c5MidP xs f g ((c5AggNode g).clear_state) (c5Trace f []) 0 y)
          "agg" [f y] false (c5rt2 y)
        = (if aggShouldRoute (some (.vInt (Int.ofNat xs.length))) (some (.vInt ((0 : Int) + 1)))
            then handle_output (c5Mid xs f g ([] ++ [y]))
              (.vList (([] ++ [y]).map fun x => g (f x)))
            else c5Mid xs f g ([] ++ [y])) :=
      agg_hop_first 3 (c5MidP xs f g ((c5AggNode g).clear_state) (c5Trace f []) 0 y)
        "agg" (f y) (g (f y)) (c5rt2 y) ((c5AggNode g).clear_state) (Int.ofNat xs.length)
        rfl rfl rfl rfl rfl rfl rfl rfl hle1
    rw [s2]
    by_cases hr : rest0.isEmpty = true
    · have hre : rest0 = [] := List.isEmpty_iff.mp hr
      have hgate : aggShouldRoute (some (.vInt (Int.ofNat xs.length)))
          (some (.vInt ((0 : Int) + 1))) = true := by
        rw [hxs, hre]
        rfl
      rw [if_pos hgate, if_pos hr]
    · have hre : rest0 ≠ [] := fun h => hr (by rw [h]; rfl)
      have hgate : aggShouldRoute (some (.vInt (Int.ofNat xs.length)))
          (some (.vInt ((0 : Int) + 1))) = false := by
        rw [aggShouldRoute_int]
        apply decide_eq_false
        rw [hxs]
        have hpos : 0 < rest0.length := List.length_pos.mpr hre
        simp only [List.nil_append, List.length_cons, Int.ofNat_eq_natCast]
        omega
      rw [hgate]
      simp only [Bool.false_eq_true, if_false]
      rw [if_neg hr]
  · rw [List.concat_eq_append] at hd
    subst hd
    have hle2 : Int.ofNat (L ++ [b]).length + 1 ≤ Int.ofNat xs.length := by
      rw [hxs]
      simp [Int.ofNat_eq_natCast]
      omega
    have hne2 : Int.ofNat (L ++ [b]).length + 1 ≠ 1 := by
      simp [Int.ofNat_eq_natCast]
      omega
    rw [c5Mid_concat xs f g L b, c5Mid_concat xs f g (L ++ [b]) y]
    have s1 : runNodeF 7 (c5MidStep xs f g L b) "proc" [y] false c5rt
        = runNodeF 5 (c5MidP xs f g (c5AggMid f g (L ++ [b]) b) (c5Trace f (L ++ [b]))
            (Int.ofNat (L ++ [b]).length) y) "agg" [f y] false (c5rt2 y) :=
      proc_hop 5 (c5MidStep xs f g L b) "proc" "agg" y (f y) c5rt (c5ProcMid f b)
        rfl rfl rfl rfl rfl rfl rfl rfl
    rw [s1]
    have s2 : runNodeF 5 (c5MidP xs f g (c5AggMid f g (L ++ [b]) b) (c5Trace f (L ++ [b]))
          (Int.ofNat (L ++ [b]).length) y) "agg" [f y] false (c5rt2 y)
        = (if aggShouldRoute (some (.vInt (Int.ofNat xs.length)))
              (some (.vInt (Int.ofNat (L ++ [b]).length + 1)))
            then handle_output (c5AfterAgg xs f g (c5Trace f (L ++ [b]))
                (Int.ofNat (L ++ [b]).length) ((L ++ [b]).map fun x => g (f x)) y)
              (.vList ((L ++ [b]).map (fun x => g (f x)) ++ [g (f y)]))
            else c5AfterAgg xs f g (c5Trace f (L ++ [b]))
                (Int.ofNat (L ++ [b]).length) ((L ++ [b]).map fun x => g (f x)) y) :=
      agg_hop_append 3 (c5MidP xs f g (c5AggMid f g (L ++ [b]) b) (c5Trace f (L ++ [b]))
          (Int.ofNat (L ++ [b]).length) y) "agg" (f y) (g (f y)) (c5rt2 y)
        (c5AggMid f g (L ++ [b]) b) (Int.ofNat (L ++ [b]).length) (Int.ofNat xs.length)
        ((L ++ [b]).map fun x => g (f x)) rfl rfl rfl rfl rfl rfl rfl rfl rfl hle2 hne2
    rw [s2]
    have hstate : c5AfterAgg xs f g (c5Trace f (L ++ [b])) (Int.ofNat (L ++ [b]).length)
        ((L ++ [b]).map fun x => g (f x)) y = c5MidStep xs f g (L ++ [b]) y := by
      simp [c5AfterAgg, c5MidStep, c5AggMid, c5AggNode, c5Trace, List.map_append,
        List.flatMap_append, List.length_append, Int.ofNat_eq_natCast]
      omega
    rw [hstate]
    have hlist : ((L ++ [b]).map (fun x => g (f x)) ++ [g (f y)])
        = ((L ++ [b]) ++ [y]).map fun x => g (f x) := by
      simp
    rw [hlist]
    by_cases hr : rest0.isEmpty = true
    · have hre : rest0 = [] := List.isEmpty_iff.mp hr
      have hgate : aggShouldRoute (some (.vInt (Int.ofNat xs.length)))
          (some (.vInt (Int.ofNat (L ++ [b]).length + 1))) = true := by
        rw [aggShouldRoute_int]
        apply decide_eq_true
        rw [hxs, hre]
        simp [Int.ofNat_eq_natCast]
        omega
      rw [if_pos hgate, if_pos hr]
    · have hre : rest0 ≠ [] := fun h => hr (by rw [h]; rfl)
      have hgate : aggShouldRoute (some (.vInt (Int.ofNat xs.length)))
          (some (.vInt (Int.ofNat (L ++ [b]).length + 1))) = false := by
        rw [aggShouldRoute_int]
        apply decide_eq_false
        rw [hxs]
        have hpos : 0 < rest0.length := List.length_pos.mpr hre
        simp [Int.ofNat_eq_natCast]
        omega
      rw [hgate]
      simp only [Bool.false_eq_true, if_false]
      rw [if_neg hr]

/-- Folding the fan-out loop: from the mid-loop state with prefix `done`
processed and the nonempty suffix `ys` still to process, the loop runs
`proc` then `agg` once per remaining element in order and ends by handing
the fully collected list to the leaf-output handler. -/
lemma c5_runList (xs : List PyVal) (f g : PyVal → PyVal) :
    ∀ ys done : List PyVal, xs = done ++ ys → ys ≠ [] →
    runListF 7 (c5Mid xs f g done) "proc" ys c5rt =
      handle_output (c5Mid xs f g xs) (.vList (xs.map fun x => g (f x))) := by
  intro ys
  induction ys with
  | nil => exact fun done _ hne => absurd rfl hne
  | cons y rest ih =>
    intro done hxs _
    have hunf : runListF 7 (c5Mid xs f g done) "proc" (y :: rest) c5rt
        = runListF 7 (runNodeF 7 (c5Mid xs f g done) "proc" [y] false c5rt)
            "proc" rest c5rt := by
      simp [runListF]
    rw [hunf, c5_step_to_gate xs done rest y f g hxs]
    rcases rest with _ | ⟨r, rs⟩
    · have hxs2 : xs = done ++ [y] := hxs
      rw [show (([] : List PyVal).isEmpty = true) from rfl, if_pos rfl, ← hxs2]
      simp [runListF]
    · rw [show ((r :: rs).isEmpty = false) from rfl]
      simp only [Bool.false_eq_true, if_false]
      exact ih (done ++ [y]) (by rw [hxs, List.append_assoc]; rfl) (by simp)

/-- The state `ExecutionPath.run` hands to the root `run` call on the C5
fixture: execution state cleared, store reset and prepped (all four
for-each counters zeroed, the span registered). -/
def c5Prep (xs : List PyVal) (f g : PyVal → PyVal) : EngineState :=
  { nodes := [("fanout", (c5FanoutNode xs).clear_state),
              ("proc", (c5ProcNode f).clear_state),
              ("agg", (c5AggNode g).clear_state)],
    node_ids := [("fanout", 0), ("proc", 1), ("agg", 2)],
    node_names := [(0, "fanout"), (1, "proc"), (2, "agg")],
    root_node_id := some 0, tree_input := .vTuple [],
    tree_output := .special .NEVER_RAN, locked_at_step_name := none,
    compiled := true, allow_cycles := true,
    true_cycles := some [], for_each_cycles := some [c5C],
    for_each_end_node_ids := [("fanout", "agg")],
    store_props := [(("fanout", "expected"), .vInt 0),
                    (("fanout", "actual"), .vInt 0),
                    (("agg", "actual"), .vInt 0),
                    (("agg", "expected"), .vInt 0)],
    cycle_end_lookup := [("fanout", "agg")],
    cycle_store := [("fanout", c5C), ("proc", c5C), ("agg", c5C)],
    error := none, trace := [] }

/-- Running the C5 fixture tree: after the prep phase, the root fan-out
step executes (emitting the whole source list), publishes the expected
counts, and iterates the fan-out loop over the source elements; the final
report wraps whatever the loop left behind. -/
lemma c5_start (xs : List PyVal) (f g : PyVal → PyVal) :
    treeRun 9 (c5St xs f g) [] false
      = runReport (runListF 7 (c5Mid xs f g []) "proc" xs c5rt) := by
  rw [show treeRun 9 (c5St xs f g) [] false
      = runReport (runNodeF (8 + 1) (c5Prep xs f g) "fanout" [] false
          { rinput := .vTuple [], auto_approve := false, input_chain := [] }) from rfl]
  rw [runNodeF_step 8 (c5Prep xs f g) "fanout" [] false
    { rinput := .vTuple [], auto_approve := false, input_chain := [] }
    ((c5FanoutNode xs).clear_state) rfl rfl]
  show runReport (routeOutputF (7 + 1) (c5Mid xs f g []) "fanout" (.vList xs) c5rt)
      = runReport (runListF 7 (c5Mid xs f g []) "proc" xs c5rt)
  rw [routeOutputF_forEach 7 (c5Mid xs f g []) "fanout" (.vList xs) c5rt
    (c5FanoutMid xs) "proc" xs rfl rfl rfl rfl]

/-- C5: For every for-each route whose step emits an ordered **nonempty**
sequence of N elements feeding a matching aggregator, the fan-out target
step is invoked exactly once per element, in the source sequence's order,
each element passed individually (one `call "proc" [x]` event per source
element `x`, in order), the aggregator absorbs the per-element results in
that same order (`call "agg" [f x]` right after each), and the
aggregator's collected output is an ordered list of length N preserving
that per-element processing order.  (For an empty source the aggregator
never runs and its output stays the `NEVER_RAN` sentinel — see the
counterexample.) -/
theorem C5_for_each_order_and_collection (xs : List PyVal) (f g : PyVal → PyVal)
    (hne : xs ≠ []) :
    (treeRun 9 (c5St xs f g) [] false).1.error = none ∧
    (treeRun 9 (c5St xs f g) [] false).1.trace
      = .call "fanout" [] :: ((xs.flatMap fun x => [.call "proc" [x], .call "agg" [f x]])
          ++ [.leaf (.vList (xs.map fun x => g (f x)))]) ∧
    (treeRun 9 (c5St xs f g) [] false).2 = .vList (xs.map fun x => g (f x)) ∧
    ((getNode? (treeRun 9 (c5St xs f g) [] false).1 "agg").map Node.output_data)
      = some (.vList (xs.map fun x => g (f x))) ∧
    (xs.map fun x => g (f x)).length = xs.length := by
  obtain ⟨L, lst, hcat⟩ : ∃ L lst, xs = L ++ [lst] := by
    rcases List.eq_nil_or_concat xs with h | ⟨L, lst, h⟩
    · exact absurd h hne
    · exact ⟨L, lst, by rw [h, List.concat_eq_append]⟩
  have hrun : treeRun 9 (c5St xs f g) [] false
      = runReport (handle_output (c5Mid xs f g xs) (.vList (xs.map fun x => g (f x)))) := by
    rw [c5_start, c5_runList xs f g xs [] rfl hne]
  rw [hrun, hcat, c5Mid_concat]
  exact ⟨rfl, rfl, rfl, rfl, by simp⟩

/-- C5 counterexample: for a for-each span over an **empty** source
sequence the aggregator is never invoked, so its collected output is not
an ordered list of length 0 — it stays the `NEVER_RAN` sentinel — and the
run reports `NEVER_FINISHED`. -/
theorem C5_counterexample_empty_source :
    ((getNode? (treeRun 9 (c5St [] (fun v => v) (fun v => v)) [] false).1 "agg").map
        Node.output_data = some (.special .NEVER_RAN)) ∧
    ((getNode? (treeRun 9 (c5St [] (fun v => v) (fun v => v)) [] false).1 "agg").map
        Node.output_data ≠ some (.vList (([] : List PyVal).map fun x => x))) ∧
    (treeRun 9 (c5St [] (fun v => v) (fun v => v)) [] false).2
      = .special .NEVER_FINISHED := by
  have h : runListF 7 (c5Mid [] (fun v => v) (fun v => v) []) "proc" [] c5rt
      = c5Mid [] (fun v => v) (fun v => v) [] := by
    simp [runListF]
  rw [c5_start, h]
  refine ⟨rfl, ?_, rfl⟩
  show some (PyVal.special .NEVER_RAN) ≠ some (.vList [])
  simp

/-- C5 witness: the theorem applied to the two-element source
`[1, 2]` with identity processing — the trace records one fan-out
invocation per element in order and the aggregator collects `[1, 2]`. -/
theorem C5_witness :
    ([PyVal.vInt 1, PyVal.vInt 2] ≠ ([] : List PyVal)) ∧
    (treeRun 9 (c5St [.vInt 1, .vInt 2] (fun v => v) (fun v => v)) [] false).2
      = .vList [.vInt 1, .vInt 2] :=
  ⟨by simp,
    (C5_for_each_order_and_collection [.vInt 1, .vInt 2] (fun v => v) (fun v => v)
      (by simp)).2.2.1⟩

end BotsOnRails
